import Mathlib

/-!
Shallow embedding of the turn-based simulation engine of ViralSandbox
(`src/play_module.py`, with the database / genome queries it calls from
`src/game_state.py`, `src/database.py` and the data model of `src/models.py`).

Conventions of the embedding:
* Python `dict`s (which preserve insertion order) are association lists; the
  operations `dget`, `dset`, `ddel`, `dincr` mirror `d.get`, `d[k] = v`,
  `del d[k]` and the `if k in d: d[k] += v else: d[k] = v` idiom.
* Python numbers: counts are `Int`, chances / levels / amounts are `ℚ`.
* `random.random()` is a stream of rationals `RStream`; each call consumes one
  index.  `random.choice(l)` consumes one draw and picks `⌊draw * len l⌋`.
* Fallible code returns `Option`: `none` models a raised Python exception
  (`ZeroDivisionError`, `KeyError`, `OverflowError`, `AttributeError`).
-/

namespace Viral

/-- Keys of the population store: `(entity_id, location-string)`. -/
abbrev EKey := Nat × String

/-- Python-dict lookup (`d.get k`). -/
def dget {α : Type} {β : Type} [DecidableEq α] : List (α × β) → α → Option β
  | [], _ => none
  | (k, v) :: rest, a => if k = a then some v else dget rest a

/-- Python-dict assignment of an existing or fresh key (`d[k] = v`),
keeping the insertion position of an existing key. -/
def dset {α : Type} {β : Type} [DecidableEq α] : List (α × β) → α → β → List (α × β)
  | [], a, b => [(a, b)]
  | (k, v) :: rest, a, b => if k = a then (k, b) :: rest else (k, v) :: dset rest a b

/-- Python-dict deletion (`del d[k]`). -/
def ddel {α : Type} {β : Type} [DecidableEq α] : List (α × β) → α → List (α × β)
  | [], _ => []
  | (k, v) :: rest, a => if k = a then rest else (k, v) :: ddel rest a

/-- The `if k in d: d[k] += v else: d[k] = v` idiom. -/
def dincr {α : Type} [DecidableEq α] (m : List (α × Int)) (a : α) (b : Int) : List (α × Int) :=
  match dget m a with
  | some v => dset m a (v + b)
  | none => m ++ [(a, b)]

/-- Insert-or-overwrite used for `category_counts` bookkeeping. -/
def dput {α : Type} {β : Type} [DecidableEq α] (m : List (α × β)) (a : α) (b : β) :
    List (α × β) :=
  match dget m a with
  | some _ => dset m a b
  | none => m ++ [(a, b)]

/-- Python-set insertion on a membership-only list model. -/
def addOnce {α : Type} [DecidableEq α] (l : List α) (a : α) : List α :=
  if a ∈ l then l else l ++ [a]

/-- The entity map used by the engine: `(entity_id, location) -> count`. -/
abbrev EMap := List (EKey × Int)

/-- A polyprotein instance (`PolyproteinInstance` in play_module.py). -/
structure Poly where
  orfName : String
  proteinIds : List Nat
  cleavage : ℚ
deriving DecidableEq

/-- One input dict of a transition effect (`EntityInput` of models.py;
the engine reads the keys `entity_id`, `location`, `amount`, `consumed`). -/
structure EntityInput where
  entityId : Nat
  loc : String
  amount : Int
  consumed : Bool
deriving DecidableEq

/-- One output dict of a transition effect (`EntityOutput` of models.py). -/
structure EntityOutput where
  entityId : Nat
  loc : String
  amount : Int
  isUnpackGenome : Bool
deriving DecidableEq

/-- The engine-relevant fields of `models.Effect`. -/
structure Effect where
  id : Int
  effectType : String
  category : String
  inputs : List EntityInput
  outputs : List EntityOutput
  chance : ℚ
  interferonProduction : ℚ
  antibodyResponse : ℚ
  targetEffectId : Option Int
  targetCategory : String
  chanceModifier : ℚ
  interferonModifier : ℚ
  antibodyModifier : ℚ
  sourceLoc : String
  targetLoc : String
  affectedEntityId : Option Nat
  locationChangeChance : ℚ
  templates : List (Nat × String)
  translationChance : ℚ
  orfTargeting : String
deriving DecidableEq

/-- A neutral effect record (all numeric fields zero, no targets); concrete
effects in theorems override the fields they use. -/
def baseEffect : Effect :=
  { id := 0, effectType := "", category := "", inputs := [], outputs := [],
    chance := 0, interferonProduction := 0, antibodyResponse := 0,
    targetEffectId := none, targetCategory := "", chanceModifier := 0,
    interferonModifier := 0, antibodyModifier := 0, sourceLoc := "",
    targetLoc := "", affectedEntityId := none, locationChangeChance := 0,
    templates := [], translationChance := 0, orfTargeting := "Random ORF" }

/-- One entry of `GameState.get_orf_structure()` (orf name and gene ids). -/
structure OrfInfo where
  orf : String
  genes : List Nat
deriving DecidableEq

/-- The engine-relevant fields of `models.Gene`. -/
structure GeneInfo where
  proteinId : Option Nat
  effectIds : List Int
deriving DecidableEq

/-- The read-only collaborator snapshot: database tables and genome-layout
query results used by the engine during one run. -/
structure Db where
  entities : List (Nat × String)
  enabledProteinIds : List Nat
  degradation : List (String × List (String × ℚ))
  ifnModifiers : List (String × ℚ)
  ifnDecay : ℚ
  orfs : List OrfInfo
  genes : List (Nat × GeneInfo)
  dbEffectIds : List Int
  genomeEntityIds : List Nat
deriving DecidableEq

/-- `database.get_entity(id).category` (None when the id is unknown). -/
def getEntityCat (db : Db) (eid : Nat) : Option String :=
  dget db.entities eid

/-- `GameState.can_entity_exist` (game_state.py lines 783-799). -/
def canEntityExist (db : Db) (eid : Nat) : Bool :=
  match getEntityCat db eid with
  | none => false
  | some cat => if cat = "Protein" then decide (eid ∈ db.enabledProteinIds) else true

/-- `database.get_degradation_chance(category, location)`; falls back to 5.0. -/
def getDegradation (db : Db) (cat : String) (loc : String) : ℚ :=
  match dget db.degradation cat with
  | some inner => (dget inner loc).getD 5
  | none => 5

/-- `database.get_interferon_modifier(category)`; falls back to 50.0. -/
def getIfnModifier (db : Db) (cat : String) : ℚ :=
  (dget db.ifnModifiers cat).getD 50

/-- The mutable `SimulationState` of play_module.py (observability-only
fields `log` and the UI speed string are dropped). -/
structure SimState where
  turn : Nat
  entities : EMap
  newEntities : EMap
  polys : List (Poly × Int)
  newPolys : List (Poly × Int)
  ifnLevel : ℚ
  abStored : ℚ
  abActive : Int
  abQueue : List (Nat × ℚ)
  history : List (Nat × List (String × Int))
  locsEntered : List String
  catsProduced : List String
  catCounts : List (String × Int)
  isRunning : Bool
  isEnded : Bool
  isVictory : Bool
  extinction : Bool
deriving DecidableEq

/-- A stream of pseudo-random draws; `val i` models the result of the
`i`-th call of `random.random()`. -/
structure RStream where
  val : Nat → ℚ

/-- A stream is well formed when every draw lies in `[0, 1)`,
as `random.random()` guarantees. -/
def RStream.ok (r : RStream) : Prop := ∀ i, 0 ≤ r.val i ∧ r.val i < 1

/-- Number of successes of `n` independent Bernoulli trials
(`if random.random() * 100 < chance`) starting at stream index `i`. -/
def countSucc (r : RStream) (i : Nat) (n : Nat) (chance : ℚ) : Nat :=
  ((List.range n).filter (fun j => decide (r.val (i + j) * 100 < chance))).length

/-! ### Modifier resolver (`_get_transition_modifiers`) -/

/-- Key of the modifier table: `('id', effect_id)` or `('category', name)`. -/
inductive ModKey
  | effId : Int → ModKey
  | cat : String → ModKey
deriving DecidableEq

/-- One row of the modifier table; 100 means unchanged. -/
structure ModVals where
  chance : ℚ
  interferon : ℚ
  antibody : ℚ
deriving DecidableEq

/-- The key a modify rule writes to: target id wins over target category;
a rule with neither is skipped (`continue`). -/
def modTarget (e : Effect) : Option ModKey :=
  match e.targetEffectId with
  | some tid => some (ModKey.effId tid)
  | none => if e.targetCategory = "" then none else some (ModKey.cat e.targetCategory)

/-- Fold one modify rule into the table (the three `modifiers[key][...] =
modifiers[key][...] * effect.x_modifier / 100` assignments). -/
def applyMod (tbl : ModKey → ModVals) (e : Effect) : ModKey → ModVals :=
  match modTarget e with
  | none => tbl
  | some k => fun q =>
      if q = k then
        { chance := (tbl k).chance * e.chanceModifier / 100,
          interferon := (tbl k).interferon * e.interferonModifier / 100,
          antibody := (tbl k).antibody * e.antibodyModifier / 100 }
      else tbl q

/-- `_get_transition_modifiers`: the defaultdict is a total function whose
absent keys read as `{chance: 100, interferon: 100, antibody: 100}`. -/
def getTransitionModifiers (allEffects : List Effect) : ModKey → ModVals :=
  (allEffects.filter (fun e => decide (e.effectType = "Modify transition"))).foldl
    applyMod (fun _ => ⟨100, 100, 100⟩)

/-- The effective chance computed at play_module.py lines 509-516:
`base * (id_mod/100) * (cat_mod/100)` then `max(0, min(100, ·))`. -/
def effectiveChance (mods : ModKey → ModVals) (e : Effect) : ℚ :=
  max 0 (min 100 (e.chance * ((mods (ModKey.effId e.id)).chance / 100) *
    ((mods (ModKey.cat e.category)).chance / 100)))

/-! ### Transition stage (`_process_transitions`, `_apply_transition`) -/

/-- The feasibility loop of `_apply_transition` (lines 487-504).  Returns
`(inputs_available, min_possible)` with `none` as `float('inf')`; the whole
result is `none` when Python would raise `ZeroDivisionError`
(`available // amount` with a zero `amount`). -/
def feasible (ents : EMap) : List EntityInput → Option Int → Option (Bool × Option Int)
  | [], acc => some (true, acc)
  | inp :: rest, acc =>
      let available := (dget ents (inp.entityId, inp.loc)).getD 0
      if available < inp.amount then some (false, acc)
      else if inp.amount = 0 then none
      else
        let possible := Int.fdiv available inp.amount
        feasible ents rest
          (some (match acc with | none => possible | some m => min m possible))

/-- The consumption loop (lines 530-539).  `none` models the `KeyError`
raised when a consumed key was already deleted by an earlier duplicate input. -/
def consumeInputs (succ : Int) : List EntityInput → EMap → Option EMap
  | [], ents => some ents
  | inp :: rest, ents =>
      if inp.consumed then
        match dget ents (inp.entityId, inp.loc) with
        | none => none
        | some v =>
            let v2 := v - inp.amount * succ
            let ents2 :=
              if v2 ≤ 0 then ddel ents (inp.entityId, inp.loc)
              else dset ents (inp.entityId, inp.loc) v2
            consumeInputs succ rest ents2
      else consumeInputs succ rest ents

/-- One genome entity spawned by `_spawn_genome_entities`. -/
def spawnStep (db : Db) (loc : String) (count : Int) (st : SimState) (eid : Nat) :
    SimState :=
  let st2 := { st with newEntities := dincr st.newEntities (eid, loc) count,
                       locsEntered := addOnce st.locsEntered loc }
  match getEntityCat db eid with
  | some cat => { st2 with catsProduced := addOnce st2.catsProduced cat }
  | none => st2

/-- `_spawn_genome_entities`. -/
def spawnGenome (db : Db) (loc : String) (count : Int) (s : SimState) : SimState :=
  db.genomeEntityIds.foldl (spawnStep db loc count) s

/-- The production loop of `_apply_transition` (lines 542-565). -/
def produceOutputs (db : Db) (succ : Int) : List EntityOutput → SimState → SimState
  | [], s => s
  | out :: rest, s =>
      if out.isUnpackGenome then
        produceOutputs db succ rest (spawnGenome db out.loc succ s)
      else if canEntityExist db out.entityId then
        let s2 := { s with
          newEntities := dincr s.newEntities (out.entityId, out.loc) (out.amount * succ),
          locsEntered := addOnce s.locsEntered out.loc }
        let s3 :=
          match getEntityCat db out.entityId with
          | some cat => { s2 with catsProduced := addOnce s2.catsProduced cat }
          | none => s2
        produceOutputs db succ rest s3
      else produceOutputs db succ rest s

/-- `_apply_transition`.  The result also carries the next stream index;
`none` models a raised exception (zero-amount division, `int(inf)` on an
inputless rule, or a `KeyError` during consumption). -/
def applyTransition (db : Db) (mods : ModKey → ModVals) (eff : Effect) (r : RStream)
    (s : SimState) (i : Nat) : Option (SimState × Nat) :=
  match feasible s.entities eff.inputs none with
  | none => none
  | some (avail, minPoss) =>
    if avail = false then some (s, i)
    else if minPoss = some 0 then some (s, i)
    else
      let tc := effectiveChance mods eff
      if tc ≤ 0 then some (s, i)
      else
        match minPoss with
        | none => none
        | some mp =>
          let trials := mp.toNat
          let succN := countSucc r i trials tc
          let i2 := i + trials
          if succN = 0 then some (s, i2)
          else
            let succ : Int := succN
            match consumeInputs succ eff.inputs s.entities with
            | none => none
            | some ents2 =>
              let m1 := mods (ModKey.effId eff.id)
              let m2 := mods (ModKey.cat eff.category)
              let s2 := produceOutputs db succ eff.outputs { s with entities := ents2 }
              let ifnP := eff.interferonProduction * (m1.interferon / 100) *
                (m2.interferon / 100)
              let s3 :=
                if ifnP > 0 then
                  { s2 with ifnLevel := min 100 (s2.ifnLevel + ifnP * succ) }
                else s2
              let abR := eff.antibodyResponse * (m1.antibody / 100) * (m2.antibody / 100)
              let s4 :=
                if abR > 0 then
                  { s3 with abStored := s3.abStored + abR * succ,
                            abQueue := s3.abQueue ++ [(s3.turn + 100, abR * succ)] }
                else s3
              some (s4, i2)

/-- Stable ascending insertion used to model Python's
`effects.sort(key=lambda e: e.id)`. -/
def insertById (e : Effect) : List Effect → List Effect
  | [] => [e]
  | f :: fs => if f.id < e.id then f :: insertById e fs else e :: f :: fs

/-- Stable sort of an effect list by id. -/
def sortById : List Effect → List Effect
  | [] => []
  | e :: es => insertById e (sortById es)

/-- Run a fallible per-effect step over a list of effects, threading the
state and the stream index. -/
def seqSteps {α : Type} (f : α → SimState → Nat → Option (SimState × Nat)) :
    List α → SimState → Nat → Option (SimState × Nat)
  | [], s, i => some (s, i)
  | e :: rest, s, i =>
      match f e s i with
      | none => none
      | some (s2, i2) => seqSteps f rest s2 i2

/-- `_process_transitions`. -/
def transitionsStep (db : Db) (allEffects : List Effect) (r : RStream)
    (s : SimState) (i : Nat) : Option (SimState × Nat) :=
  seqSteps (applyTransition db (getTransitionModifiers allEffects) · r)
    (sortById (allEffects.filter (fun e => decide (e.effectType = "Transition")))) s i

/-! ### Translation stage (`_process_translations`, `_apply_translation`,
`_translate_orf`) -/

/-- The template-availability loop of `_apply_translation`; `none` in the
second component is Python's `float('inf')`. -/
def templatesAvailable (ents : EMap) :
    List (Nat × String) → Option Int → Bool × Option Int
  | [], acc => (true, acc)
  | (eid, loc) :: rest, acc =>
      let available := (dget ents (eid, loc)).getD 0
      if available ≤ 0 then (false, acc)
      else templatesAvailable ents rest
        (some (match acc with | none => available | some m => min m available))

/-- The ORF-targeting filter of `_apply_translation`. -/
def filterOrfs (targeting : String) (orfs : List OrfInfo) : List OrfInfo :=
  orfs.filter (fun o =>
    if targeting = "ORF-1 only" then decide (o.orf = "ORF-1")
    else if targeting = "Not ORF-1" then decide (o.orf ≠ "ORF-1")
    else true)

/-- Protein entity ids contributed by the genes of an ORF, in gene order
(genes without a `gene_type_entity_id` contribute nothing). -/
def orfProteinIds (db : Db) (genes : List Nat) : List Nat :=
  genes.filterMap (fun g => (dget db.genes g).bind (·.proteinId))

/-- The self-cleavage-chance computation of `_translate_orf` (lines 707-714).
`models.EffectType` has no `SELF_CLEAVAGE` member, so the comparison
`effect.effect_type == EffectType.SELF_CLEAVAGE.value` raises
`AttributeError` as soon as some gene effect id resolves to a real effect;
when no id resolves, the chance stays 0.0. -/
def cleavageSum (db : Db) (genes : List Nat) : Option ℚ :=
  if genes.any (fun g =>
      match dget db.genes g with
      | some gi => gi.effectIds.any (fun eid => decide (eid ∈ db.dbEffectIds))
      | none => false)
  then none else some 0

/-- `_translate_orf`. -/
def translateOrf (db : Db) (o : OrfInfo) (s : SimState) : Option SimState :=
  match orfProteinIds db o.genes with
  | [] => some s
  | [pid] =>
      some { s with newEntities := dincr s.newEntities (pid, "Cytosol") 1,
                    locsEntered := addOnce s.locsEntered "Cytosol",
                    catsProduced := addOnce s.catsProduced "Protein" }
  | pids =>
      match cleavageSum db o.genes with
      | none => none
      | some cc =>
          some { s with
            newPolys := dincr s.newPolys ⟨o.orf, pids, cc⟩ 1,
            locsEntered := addOnce s.locsEntered "Cytosol",
            catsProduced := addOnce s.catsProduced "Protein" }

/-- The per-success loop of `_apply_translation`: each success consumes one
draw for `random.choice(valid_orfs)` and translates the picked ORF. -/
def doTranslations (db : Db) (orfList : List OrfInfo) (r : RStream) :
    Nat → SimState → Nat → Option (SimState × Nat)
  | 0, s, i => some (s, i)
  | k + 1, s, i =>
      let idx := min (Int.toNat ⌊r.val i * (orfList.length : ℚ)⌋) (orfList.length - 1)
      match translateOrf db (orfList.getD idx ⟨"", []⟩) s with
      | none => none
      | some s2 => doTranslations db orfList r k s2 (i + 1)

/-- `_apply_translation`; `none` models `int(float('inf'))` overflowing on a
templateless rule, or the `AttributeError` inside `_translate_orf`. -/
def applyTranslation (db : Db) (eff : Effect) (r : RStream)
    (s : SimState) (i : Nat) : Option (SimState × Nat) :=
  match templatesAvailable s.entities eff.templates none with
  | (false, _) => some (s, i)
  | (true, minPoss) =>
    if minPoss = some 0 then some (s, i)
    else if db.orfs = [] then some (s, i)
    else
      let vOrfs := filterOrfs eff.orfTargeting db.orfs
      if vOrfs = [] then some (s, i)
      else if eff.translationChance ≤ 0 then some (s, i)
      else
        match minPoss with
        | none => none
        | some mp =>
          let trials := mp.toNat
          let succN := countSucc r i trials eff.translationChance
          let i2 := i + trials
          if succN = 0 then some (s, i2)
          else doTranslations db vOrfs r succN s i2

/-- `_process_translations`. -/
def translationsStep (db : Db) (allEffects : List Effect) (r : RStream)
    (s : SimState) (i : Nat) : Option (SimState × Nat) :=
  seqSteps (applyTranslation db · r)
    (sortById (allEffects.filter (fun e => decide (e.effectType = "Translation")))) s i

/-! ### Compartment migration (`_process_location_changes`,
`_apply_location_change`) -/

/-- The `entities_to_move` snapshot filter of `_apply_location_change`. -/
def entitiesToMove (db : Db) (eff : Effect) (ents : EMap) : List (Nat × Int) :=
  ents.filterMap (fun kv =>
    if decide (kv.1.2 = eff.sourceLoc) &&
       (match eff.affectedEntityId with
        | some a => decide (kv.1.1 = a)
        | none => true) &&
       canEntityExist db kv.1.1
    then some (kv.1.1, kv.2) else none)

/-- The per-entity move loop of `_apply_location_change` (lines 768-792);
`none` models the `KeyError` on a missing source key. -/
def moveEntities (eff : Effect) (r : RStream) :
    List (Nat × Int) → SimState → Nat → Option (SimState × Nat)
  | [], s, i => some (s, i)
  | (eid, cnt) :: rest, s, i =>
      let trials := cnt.toNat
      let mv := countSucc r i trials eff.locationChangeChance
      let i2 := i + trials
      if mv = 0 then moveEntities eff r rest s i2
      else
        match dget s.entities (eid, eff.sourceLoc) with
        | none => none
        | some v =>
            let v2 := v - (mv : Int)
            let e1 :=
              if v2 ≤ 0 then ddel s.entities (eid, eff.sourceLoc)
              else dset s.entities (eid, eff.sourceLoc) v2
            let e2 := dincr e1 (eid, eff.targetLoc) (mv : Int)
            moveEntities eff r rest
              { s with entities := e2,
                       locsEntered := addOnce s.locsEntered eff.targetLoc } i2

/-- `_apply_location_change`. -/
def applyLocationChange (db : Db) (eff : Effect) (r : RStream)
    (s : SimState) (i : Nat) : Option (SimState × Nat) :=
  if eff.sourceLoc = "" ∨ eff.targetLoc = "" ∨ eff.locationChangeChance ≤ 0 then
    some (s, i)
  else moveEntities eff r (entitiesToMove db eff s.entities) s i

/-- `_process_location_changes`. -/
def locationStep (db : Db) (allEffects : List Effect) (r : RStream)
    (s : SimState) (i : Nat) : Option (SimState × Nat) :=
  seqSteps (applyLocationChange db · r)
    (sortById (allEffects.filter (fun e => decide (e.effectType = "Change location")))) s i

/-! ### Polyprotein self-cleavage (`_process_polyprotein_cleavage`) -/

/-- The per-polyprotein cleavage loop over the snapshot of `polyproteins`. -/
def cleaveList (r : RStream) :
    List (Poly × Int) → SimState → Nat → Option (SimState × Nat)
  | [], s, i => some (s, i)
  | (p, cnt) :: rest, s, i =>
      if cnt ≤ 0 then cleaveList r rest s i
      else if p.cleavage ≤ 0 then cleaveList r rest s i
      else
        let trials := cnt.toNat
        let clv := countSucc r i trials p.cleavage
        let i2 := i + trials
        if clv = 0 then cleaveList r rest s i2
        else
          match dget s.polys p with
          | none => none
          | some v =>
              let v2 := v - (clv : Int)
              let polys2 := if v2 ≤ 0 then ddel s.polys p else dset s.polys p v2
              let ne2 := p.proteinIds.foldl
                (fun m eid => dincr m (eid, "Cytosol") (clv : Int)) s.newEntities
              cleaveList r rest { s with polys := polys2, newEntities := ne2 } i2

/-- `_process_polyprotein_cleavage`. -/
def cleavageStep (r : RStream) (s : SimState) (i : Nat) : Option (SimState × Nat) :=
  cleaveList r s.polys s i

/-! ### Degradation (`_process_degradation`, `_process_polyprotein_degradation`) -/

/-- The interferon-adjusted degradation chance for an entity
(play_module.py lines 805-818). -/
def adjustedChance (db : Db) (cat : String) (loc : String) (ifn : ℚ) : ℚ :=
  let base := getDegradation db cat loc
  if loc ≠ "Extracellular" ∧ ifn > 0 then
    min 100 (base * (1 + (getIfnModifier db cat / 100) * (ifn / 100)))
  else base

/-- One degradation pass over a snapshot of an entity map; entities whose id
resolves to nothing are skipped before any draw (`continue`). -/
def degradeList (db : Db) (r : RStream) (ifn : ℚ) :
    List (EKey × Int) → EMap → Nat → Option (EMap × Nat)
  | [], m, i => some (m, i)
  | ((eid, loc), cnt) :: rest, m, i =>
      match getEntityCat db eid with
      | none => degradeList db r ifn rest m i
      | some cat =>
          let ch := adjustedChance db cat loc ifn
          let trials := cnt.toNat
          let dgd := countSucc r i trials ch
          let i2 := i + trials
          if dgd = 0 then degradeList db r ifn rest m i2
          else
            match dget m (eid, loc) with
            | none => none
            | some v =>
                let v2 := v - (dgd : Int)
                let m2 := if v2 ≤ 0 then ddel m (eid, loc) else dset m (eid, loc) v2
                degradeList db r ifn rest m2 i2

/-- `_process_degradation`: settled entities first, then this turn's new
entities, with the interferon level read once at the start. -/
def degradationStep (db : Db) (r : RStream) (s : SimState) (i : Nat) :
    Option (SimState × Nat) :=
  let ifn := s.ifnLevel
  match degradeList db r ifn s.entities s.entities i with
  | none => none
  | some (e2, i2) =>
      match degradeList db r ifn s.newEntities s.newEntities i2 with
      | none => none
      | some (n2, i3) => some ({ s with entities := e2, newEntities := n2 }, i3)

/-- The polyprotein degradation chance: Protein category, Cytosol, with the
interferon adjustment applied whenever interferon is positive. -/
def polyAdjChance (db : Db) (ifn : ℚ) : ℚ :=
  let base := getDegradation db "Protein" "Cytosol"
  if ifn > 0 then
    min 100 (base * (1 + (getIfnModifier db "Protein" / 100) * (ifn / 100)))
  else base

/-- One degradation pass over a snapshot of a polyprotein map. -/
def degradePolyList (r : RStream) (ch : ℚ) :
    List (Poly × Int) → List (Poly × Int) → Nat → Option (List (Poly × Int) × Nat)
  | [], m, i => some (m, i)
  | (p, cnt) :: rest, m, i =>
      if cnt ≤ 0 then degradePolyList r ch rest m i
      else
        let trials := cnt.toNat
        let dgd := countSucc r i trials ch
        let i2 := i + trials
        if dgd = 0 then degradePolyList r ch rest m i2
        else
          match dget m p with
          | none => none
          | some v =>
              let v2 := v - (dgd : Int)
              let m2 := if v2 ≤ 0 then ddel m p else dset m p v2
              degradePolyList r ch rest m2 i2

/-- `_process_polyprotein_degradation`. -/
def polyDegradationStep (db : Db) (r : RStream) (s : SimState) (i : Nat) :
    Option (SimState × Nat) :=
  let ch := polyAdjChance db s.ifnLevel
  match degradePolyList r ch s.polys s.polys i with
  | none => none
  | some (p2, i2) =>
      match degradePolyList r ch s.newPolys s.newPolys i2 with
      | none => none
      | some (np2, i3) => some ({ s with polys := p2, newPolys := np2 }, i3)

/-! ### Interferon decay, antibodies, merging, history, conditions -/

/-- `_process_interferon_decay`. -/
def ifnDecayStep (db : Db) (s : SimState) : SimState :=
  if s.ifnLevel > 0 then { s with ifnLevel := max 0 (s.ifnLevel - db.ifnDecay) } else s

/-- Python `int()` on a rational: truncation toward zero. -/
def pyTrunc (q : ℚ) : Int := if 0 ≤ q then ⌊q⌋ else ⌈q⌉

/-- The manifestation-queue flush of `_process_antibodies` (lines 964-973):
entries with `manifest_turn <= current_turn` add `int(amount)` to the active
pool, the rest are kept in order. -/
def flushQueue (t : Nat) : List (Nat × ℚ) → Int → List (Nat × ℚ) →
    Int × List (Nat × ℚ)
  | [], act, nq => (act, nq)
  | (d, a) :: rest, act, nq =>
      if d ≤ t then flushQueue t rest (act + pyTrunc a) nq
      else flushQueue t rest act (nq ++ [(d, a)])

/-- Total extracellular count and the `extracellular_entities` snapshot, in
map order (lines 977-983). -/
def extracellularOf (ents : EMap) : Int × List (Nat × Int) :=
  ents.foldl
    (fun acc kv =>
      if decide (kv.1.2 = "Extracellular") then (acc.1 + kv.2, acc.2 ++ [(kv.1.1, kv.2)])
      else acc)
    (0, [])

/-- The elimination loop (lines 993-1005): entities are depleted in snapshot
order, each by `min(count, remaining)`, until the budget is exhausted. -/
def eliminateList : List (Nat × Int) → Int → EMap → Option EMap
  | [], _, m => some m
  | (eid, cnt) :: rest, remaining, m =>
      if remaining ≤ 0 then some m
      else
        let toRemove := min cnt remaining
        match dget m (eid, "Extracellular") with
        | none => none
        | some v =>
            let v2 := v - toRemove
            let m2 :=
              if v2 ≤ 0 then ddel m (eid, "Extracellular")
              else dset m (eid, "Extracellular") v2
            eliminateList rest (remaining - toRemove) m2

/-- `_process_antibodies`. -/
def processAntibodies (s : SimState) : Option SimState :=
  let fq := flushQueue s.turn s.abQueue s.abActive []
  let s1 := { s with abActive := fq.1, abQueue := fq.2 }
  if s1.abActive > (0 : Int) then
    let ex := extracellularOf s1.entities
    if ex.1 > (0 : Int) ∧ s1.abActive > (0 : Int) then
      let eliminated := min ex.1 s1.abActive
      let s2 := { s1 with abActive := s1.abActive - eliminated }
      match eliminateList ex.2 eliminated s2.entities with
      | none => none
      | some m => some { s2 with entities := m }
    else some s1
  else some s1

/-- `_merge_new_entities`. -/
def mergeNew (s : SimState) : SimState :=
  { s with
    entities := s.newEntities.foldl (fun m kv => dincr m kv.1 kv.2) s.entities,
    newEntities := [],
    polys := s.newPolys.foldl (fun m kv => dincr m kv.1 kv.2) s.polys,
    newPolys := [] }

/-- Sum a count total over an entity map, restricted by a category test. -/
def catTotal (db : Db) (ents : EMap) (pred : String → Bool) : Int :=
  ents.foldl
    (fun acc kv =>
      match getEntityCat db kv.1.1 with
      | some c => if pred c then acc + kv.2 else acc
      | none => acc)
    0

/-- Sum of all the counts of a map. -/
def sumVals {α : Type} (m : List (α × Int)) : Int := m.foldl (fun a kv => a + kv.2) 0

/-- The per-category counts of `_record_history` (viral complexes are counted
under Virion; polyproteins from both maps under Protein). -/
def histCounts (db : Db) (s : SimState) : List (String × Int) :=
  [("Virion", catTotal db s.entities
      (fun c => decide (c = "Virion") || decide (c = "Viral complex"))),
   ("RNA", catTotal db s.entities (fun c => decide (c = "RNA"))),
   ("DNA", catTotal db s.entities (fun c => decide (c = "DNA"))),
   ("Protein", catTotal db s.entities (fun c => decide (c = "Protein"))
      + sumVals s.polys + sumVals s.newPolys)]

/-- `_record_history`. -/
def recordHistory (db : Db) (s : SimState) : SimState :=
  let counts := histCounts db s
  { s with
    history := s.history ++ [(s.turn, counts)],
    catCounts := counts.foldl
      (fun m kv => dput m kv.1 (max ((dget m kv.1).getD 0) kv.2)) s.catCounts }

/-- Total and virion counters over one entity map, as accumulated by
`_check_conditions` (Virion and Viral complex categories both count). -/
def countTotals (db : Db) (ents : EMap) : Int × Int :=
  ents.foldl
    (fun acc kv =>
      (acc.1 + kv.2,
       match getEntityCat db kv.1.1 with
       | some c => if c = "Virion" ∨ c = "Viral complex" then acc.2 + kv.2 else acc.2
       | none => acc.2))
    (0, 0)

/-- The grand total of `_check_conditions`: settled entities, new entities
and both polyprotein maps. -/
def grandTotal (db : Db) (s : SimState) : Int :=
  (countTotals db s.entities).1 + (countTotals db s.newEntities).1 +
    sumVals s.polys + sumVals s.newPolys

/-- The virion count of `_check_conditions`: settled plus new entities whose
category is Virion or Viral complex. -/
def virionTotal (db : Db) (s : SimState) : Int :=
  (countTotals db s.entities).2 + (countTotals db s.newEntities).2

/-- The victory threshold `PlayModule.WIN_THRESHOLD`. -/
def winThreshold : Int := 10000

/-- `_check_conditions`: extinction first, then victory. -/
def checkConditions (db : Db) (s : SimState) : SimState :=
  if grandTotal db s = 0 then
    { s with isEnded := true, extinction := true, isRunning := false }
  else if virionTotal db s ≥ winThreshold then
    { s with isEnded := true, isVictory := true, isRunning := false }
  else s

/-! ### The turn pipeline (`_run_turn`) and the run (`_initialize_simulation`) -/

/-- `_run_turn`: the guard, the turn increment, the ordered stages, the
closing merge, the history snapshot and the termination check.  Milestone
checking and display updates touch no simulation state and are dropped. -/
def runTurn (db : Db) (effs glEffs : List Effect) (r : RStream)
    (s : SimState) (i : Nat) : Option (SimState × Nat) :=
  if s.isRunning = false ∨ s.isEnded = true then some (s, i)
  else
    let allE := effs ++ glEffs
    let s1 := mergeNew { s with turn := s.turn + 1 }
    (transitionsStep db allE r s1 i).bind fun p2 =>
    (translationsStep db allE r p2.1 p2.2).bind fun p3 =>
    (locationStep db allE r p3.1 p3.2).bind fun p4 =>
    (cleavageStep r p4.1 p4.2).bind fun p5 =>
    (degradationStep db r p5.1 p5.2).bind fun p6 =>
    (polyDegradationStep db r p6.1 p6.2).bind fun p7 =>
    let s8 := ifnDecayStep db p7.1
    (processAntibodies s8).bind fun s9 =>
    some (checkConditions db (recordHistory db (mergeNew s9)), p7.2)

/-- The state built by `_initialize_simulation` (10 starter virions
extracellularly, one initial history record), with the player having
selected a running speed. -/
def startState (db : Db) (starterId : Nat) : SimState :=
  recordHistory db
    { turn := 0, entities := [((starterId, "Extracellular"), 10)], newEntities := [],
      polys := [], newPolys := [], ifnLevel := 0, abStored := 0, abActive := 0,
      abQueue := [], history := [], locsEntered := ["Extracellular"],
      catsProduced := [], catCounts := [], isRunning := true, isEnded := false,
      isVictory := false, extinction := false }

/-- Iterate `n` turns from the start state. -/
def runTurns (db : Db) (effs glEffs : List Effect) (r : RStream) (starterId : Nat) :
    Nat → Option (SimState × Nat)
  | 0 => some (startState db starterId, 0)
  | n + 1 =>
      (runTurns db effs glEffs r starterId n).bind fun p =>
        runTurn db effs glEffs r p.1 p.2

/-! ### Invariant predicates -/

/-- Every stored count of a map is strictly positive (so no zero-count and
no negative-count key is stored). -/
def mapPos {α : Type} (m : List (α × Int)) : Prop := ∀ kv ∈ m, 0 < kv.2

/-- Every queued manifestation amount is nonnegative. -/
def queueNN (q : List (Nat × ℚ)) : Prop := ∀ da ∈ q, 0 ≤ da.2

/-- The preserved turn-boundary invariant: stored population counts are
strictly positive, the interferon level lies in `[0, 100]`, the active
antibody pool is nonnegative, and queued amounts are nonnegative. -/
def stateInv (s : SimState) : Prop :=
  mapPos s.entities ∧ mapPos s.newEntities ∧
    0 ≤ s.ifnLevel ∧ s.ifnLevel ≤ 100 ∧ 0 ≤ s.abActive ∧ queueNN s.abQueue

/-- Well-formedness of transition-rule outputs: every non-unpack output
carries a positive amount. -/
def outputsPositive (effs : List Effect) : Prop :=
  ∀ e ∈ effs, ∀ o ∈ e.outputs, o.isUnpackGenome = false → 0 < o.amount

/-! ### Concrete databases, effects and states used in the theorems -/

/-- The all-zeroes stream: every draw is 0 (a valid `random.random` value). -/
def r0 : RStream := ⟨fun _ => 0⟩

/-- A fresh simulation state holding the given entity map and nothing else,
with the run active. -/
def mkState (ents : EMap) : SimState :=
  { turn := 0, entities := ents, newEntities := [], polys := [], newPolys := [],
    ifnLevel := 0, abStored := 0, abActive := 0, abQueue := [], history := [],
    locsEntered := [], catsProduced := [], catCounts := [], isRunning := true,
    isEnded := false, isVictory := false, extinction := false }

/-- An empty collaborator snapshot. -/
def emptyDb : Db :=
  { entities := [], enabledProteinIds := [], degradation := [], ifnModifiers := [],
    ifnDecay := 0, orfs := [], genes := [], dbEffectIds := [], genomeEntityIds := [] }

/-- Database for Scenario B: entity 1 is a Virion, entity 2 an RNA; the two
degradation rates the scenario touches are 0, interferon decay 0. -/
def dbVR : Db :=
  { emptyDb with
    entities := [(1, "Virion"), (2, "RNA")],
    degradation := [("Virion", [("Extracellular", 0)]), ("RNA", [("Cytosol", 0)])] }

/-- Scenario B's rule: consume 1 virion at Extracellular, produce 2 RNA at
Cytosol, 100% chance. -/
def scenarioBEffect : Effect :=
  { baseEffect with
    id := 1, effectType := "Transition",
    inputs := [⟨1, "Extracellular", 1, true⟩],
    outputs := [⟨2, "Cytosol", 2, false⟩], chance := 100 }

/-- A player-authored transition with a zero-amount input. -/
def zeroAmountEffect : Effect :=
  { baseEffect with
    id := 3, effectType := "Transition",
    inputs := [⟨1, "Extracellular", 0, true⟩],
    outputs := [⟨2, "Cytosol", 1, false⟩], chance := 100 }

/-- A transition whose input references entity kind 99, absent from `dbVR`. -/
def missingKindEffect : Effect :=
  { baseEffect with
    id := 4, effectType := "Transition",
    inputs := [⟨99, "Extracellular", 1, true⟩],
    outputs := [⟨2, "Cytosol", 1, false⟩], chance := 100 }

/-- A transition with a non-consumed input and an output of amount 0. -/
def zeroOutputEffect : Effect :=
  { baseEffect with
    id := 5, effectType := "Transition",
    inputs := [⟨1, "Extracellular", 1, false⟩],
    outputs := [⟨2, "Cytosol", 0, false⟩], chance := 100 }

/-- A transition producing interferon 200 per firing without consuming. -/
def ifnProducerEffect : Effect :=
  { baseEffect with
    id := 6, effectType := "Transition",
    inputs := [⟨1, "Extracellular", 1, false⟩], outputs := [],
    chance := 100, interferonProduction := 200 }

/-- `dbVR` with a negative configured interferon decay rate. -/
def negDecayDb : Db := { dbVR with ifnDecay := -50 }

/-- A database with two virion kinds. -/
def dbTwoVirions : Db := { emptyDb with entities := [(1, "Virion"), (2, "Virion")] }

/-- Two extracellular kinds with 10 units each and 10 active antibodies. -/
def abState : SimState :=
  { mkState [((1, "Extracellular"), 10), ((2, "Extracellular"), 10)] with
    abActive := 10 }

/-- A database whose entity 7 has the category "Viral complex". -/
def dbVC : Db := { emptyDb with entities := [(7, "Viral complex")] }

/-- 10000 viral-complex units extracellularly. -/
def vcState : SimState := mkState [((7, "Extracellular"), 10000)]

/-- State at turn 100 whose manifestation queue holds the single entry
`(100, 1/2)`, as enqueued by a response of amount 1/2 at turn 0. -/
def fractionalQueueState : SimState :=
  { mkState [] with turn := 100, abQueue := [(100, 1/2)], abStored := 1/2 }

/-- State at turn 5 with 2 active antibodies and a due queue entry `(3, 7/2)`. -/
def truncWitnessState : SimState :=
  { mkState [] with turn := 5, abQueue := [(3, 7/2)], abActive := 2 }

/-- A 100%-chance migration rule from Extracellular to Cytosol, no kind
filter. -/
def migrationEffect : Effect :=
  { baseEffect with
    id := 7, effectType := "Change location",
    sourceLoc := "Extracellular", targetLoc := "Cytosol",
    locationChangeChance := 100 }

/-- Three units of entity kind 5 (unknown to `emptyDb`) at Extracellular. -/
def unknownKindState : SimState := mkState [((5, "Extracellular"), 3)]

/-- Ten starter virions at Extracellular (the engine's initial population). -/
def virState : SimState := mkState [((1, "Extracellular"), 10)]

/-- A database knowing entity 5 as a Virion. -/
def dbU : Db := { emptyDb with entities := [(5, "Virion")] }

/-- A modify rule granting a 150% chance multiplier to category "X". -/
def mod150 : Effect :=
  { baseEffect with
    id := 10, effectType := "Modify transition",
    targetCategory := "X", chanceModifier := 150,
    interferonModifier := 100, antibodyModifier := 100 }

/-- A modify rule granting an 80% chance multiplier to category "Y". -/
def mod80 : Effect :=
  { baseEffect with
    id := 11, effectType := "Modify transition",
    targetCategory := "Y", chanceModifier := 80,
    interferonModifier := 100, antibodyModifier := 100 }

/-- Following the claim's words for C4: the total count of entities whose
category is exactly "Virion" (settled plus new), to be compared with the
counter the code actually uses. -/
def claimVirionOnlyTotal (db : Db) (s : SimState) : Int :=
  catTotal db s.entities (fun c => decide (c = "Virion")) +
    catTotal db s.newEntities (fun c => decide (c = "Virion"))

/-- Scenario B, state at the start of turn 1 after the opening merge. -/
def sB1 : SimState :=
  { turn := 1, entities := [((1, "Extracellular"), 10)], newEntities := [],
    polys := [], newPolys := [], ifnLevel := 0, abStored := 0, abActive := 0,
    abQueue := [],
    history := [(0, [("Virion", 10), ("RNA", 0), ("DNA", 0), ("Protein", 0)])],
    locsEntered := ["Extracellular"], catsProduced := [],
    catCounts := [("Virion", 10), ("RNA", 0), ("DNA", 0), ("Protein", 0)],
    isRunning := true, isEnded := false, isVictory := false, extinction := false }

/-- Scenario B, state after the transition stage of turn 1: all 10 virions
consumed, 20 new RNA. -/
def sB2 : SimState :=
  { sB1 with
    entities := [], newEntities := [((2, "Cytosol"), 20)],
    locsEntered := ["Extracellular", "Cytosol"], catsProduced := ["RNA"] }

/-- Scenario B, state at the end of turn 1. -/
def sBF : SimState :=
  { sB1 with
    entities := [((2, "Cytosol"), 20)],
    locsEntered := ["Extracellular", "Cytosol"], catsProduced := ["RNA"],
    history := [(0, [("Virion", 10), ("RNA", 0), ("DNA", 0), ("Protein", 0)]),
                (1, [("Virion", 0), ("RNA", 20), ("DNA", 0), ("Protein", 0)])],
    catCounts := [("Virion", 10), ("RNA", 20), ("DNA", 0), ("Protein", 0)] }

/-- State after the transition stage of the zero-output-rule turn: the zero
production `0 * 10` is stored under `(2, Cytosol)` in the new-entity map. -/
def sZ2 : SimState :=
  { sB1 with
    newEntities := [((2, "Cytosol"), 0)],
    locsEntered := ["Extracellular", "Cytosol"], catsProduced := ["RNA"] }

/-- State at the end of the zero-output-rule turn: the merged entity map
keeps the zero-count key `(2, Cytosol)`. -/
def sZF : SimState :=
  { sB1 with
    entities := [((1, "Extracellular"), 10), ((2, "Cytosol"), 0)],
    locsEntered := ["Extracellular", "Cytosol"], catsProduced := ["RNA"],
    history := [(0, [("Virion", 10), ("RNA", 0), ("DNA", 0), ("Protein", 0)]),
                (1, [("Virion", 10), ("RNA", 0), ("DNA", 0), ("Protein", 0)])] }

/-- State after the transition stage of the interferon-producer turn:
interferon `200 * 10` capped at 100. -/
def sI2 : SimState := { sB1 with ifnLevel := 100 }

/-- State after the interferon-decay stage with configured decay -50:
`max(0, 100 - (-50)) = 150`. -/
def sI3 : SimState := { sB1 with ifnLevel := 150 }

/-- State at the end of the interferon-producer turn: interferon 150. -/
def sIF : SimState :=
  { sB1 with
    ifnLevel := 150,
    history := [(0, [("Virion", 10), ("RNA", 0), ("DNA", 0), ("Protein", 0)]),
                (1, [("Virion", 10), ("RNA", 0), ("DNA", 0), ("Protein", 0)])] }

/-! ## Lemmas about the dictionary model -/

theorem dget_mem {α β : Type} [DecidableEq α] :
    ∀ {m : List (α × β)} {a : α} {v : β}, dget m a = some v → (a, v) ∈ m := by
  intro m
  induction m with
  | nil => intro a v h; simp [dget] at h
  | cons kv rest ih =>
      intro a v h
      obtain ⟨k, w⟩ := kv
      by_cases hk : k = a
      · subst hk
        simp [dget] at h
        simp [h]
      · simp [dget, hk] at h
        exact List.mem_cons_of_mem _ (ih h)

theorem dset_subset {α β : Type} [DecidableEq α] (a : α) (b : β) :
    ∀ m : List (α × β), ∀ kv ∈ dset m a b, kv ∈ m ∨ kv.2 = b := by
  intro m
  induction m with
  | nil =>
      intro kv hkv
      simp [dset] at hkv
      simp [hkv]
  | cons kv0 rest ih =>
      obtain ⟨k, w⟩ := kv0
      intro kv hkv
      by_cases hk : k = a
      · subst hk
        simp only [dset, if_pos rfl] at hkv
        rcases List.mem_cons.mp hkv with h1 | h1
        · right; simp [h1]
        · left; exact List.mem_cons_of_mem _ h1
      · simp only [dset, if_neg hk] at hkv
        rcases List.mem_cons.mp hkv with h1 | h1
        · left; exact h1 ▸ List.mem_cons_self _ _
        · rcases ih kv h1 with h2 | h2
          · left; exact List.mem_cons_of_mem _ h2
          · right; exact h2

theorem ddel_subset {α β : Type} [DecidableEq α] (a : α) :
    ∀ m : List (α × β), ∀ kv ∈ ddel m a, kv ∈ m := by
  intro m
  induction m with
  | nil => intro kv hkv; simp [ddel] at hkv
  | cons kv0 rest ih =>
      obtain ⟨k, w⟩ := kv0
      intro kv hkv
      by_cases hk : k = a
      · subst hk
        simp only [ddel, if_pos rfl] at hkv
        exact List.mem_cons_of_mem _ hkv
      · simp only [ddel, if_neg hk] at hkv
        rcases List.mem_cons.mp hkv with h1 | h1
        · exact h1 ▸ List.mem_cons_self _ _
        · exact List.mem_cons_of_mem _ (ih kv h1)

theorem mapPos_dset {α : Type} [DecidableEq α] {m : List (α × Int)} (h : mapPos m)
    {a : α} {b : Int} (hb : 0 < b) : mapPos (dset m a b) := by
  intro kv hkv
  rcases dset_subset a b m kv hkv with h1 | h1
  · exact h kv h1
  · rw [h1]; exact hb

theorem mapPos_ddel {α : Type} [DecidableEq α] {m : List (α × Int)} (h : mapPos m)
    (a : α) : mapPos (ddel m a) :=
  fun kv hkv => h kv (ddel_subset a m kv hkv)

theorem mapPos_dincr {α : Type} [DecidableEq α] {m : List (α × Int)} (h : mapPos m)
    {a : α} {b : Int} (hb : 0 < b) : mapPos (dincr m a b) := by
  unfold dincr
  cases hg : dget m a with
  | none =>
      intro kv hkv
      rcases List.mem_append.mp hkv with h1 | h1
      · exact h kv h1
      · simp at h1
        rw [h1]
        exact hb
  | some v =>
      have hv : 0 < v := h (a, v) (dget_mem hg)
      intro kv hkv
      rcases dset_subset a (v + b) m kv hkv with h1 | h1
      · exact h kv h1
      · rw [h1]; omega

theorem mapPos_nil {α : Type} : mapPos ([] : List (α × Int)) := by
  intro kv hkv
  simp at hkv

/-! ## Lemmas about Bernoulli trial counting -/

theorem countSucc_le (r : RStream) (i n : Nat) (c : ℚ) : countSucc r i n c ≤ n := by
  unfold countSucc
  calc ((List.range n).filter _).length ≤ (List.range n).length :=
        List.length_filter_le _ _
    _ = n := List.length_range n

theorem countSucc_hundred {r : RStream} (hr : r.ok) (i n : Nat) {c : ℚ}
    (hc : 100 ≤ c) : countSucc r i n c = n := by
  unfold countSucc
  rw [List.filter_eq_self.mpr, List.length_range]
  intro j _
  simp only [decide_eq_true_eq]
  have h1 := (hr (i + j)).1
  have h2 := (hr (i + j)).2
  nlinarith

theorem countSucc_zeroChance {r : RStream} (hr : r.ok) (i n : Nat) {c : ℚ}
    (hc : c ≤ 0) : countSucc r i n c = 0 := by
  unfold countSucc
  rw [List.filter_eq_nil_iff.mpr]
  · rfl
  · intro j _
    simp only [decide_eq_true_eq, not_lt]
    have h1 := (hr (i + j)).1
    nlinarith

/-! ## Modifier resolver lemmas -/

theorem applyMod_none (t : ModKey → ModVals) {e : Effect}
    (h : modTarget e = none) : applyMod t e = t := by
  simp [applyMod, h]

theorem applyMod_apply_some (t : ModKey → ModVals) {e : Effect} {k : ModKey}
    (h : modTarget e = some k) (q : ModKey) :
    applyMod t e q =
      if q = k then
        { chance := (t k).chance * e.chanceModifier / 100,
          interferon := (t k).interferon * e.interferonModifier / 100,
          antibody := (t k).antibody * e.antibodyModifier / 100 }
      else t q := by
  simp [applyMod, h]

theorem applyMod_rcomm (t : ModKey → ModVals) (a b : Effect) :
    applyMod (applyMod t a) b = applyMod (applyMod t b) a := by
  cases ha : modTarget a with
  | none => rw [applyMod_none t ha, applyMod_none (applyMod t b) ha]
  | some ka =>
    cases hb : modTarget b with
    | none => rw [applyMod_none (applyMod t a) hb, applyMod_none t hb]
    | some kb =>
      funext q
      rw [applyMod_apply_some (applyMod t a) hb q, applyMod_apply_some (applyMod t b) ha q,
        applyMod_apply_some t ha kb, applyMod_apply_some t ha q,
        applyMod_apply_some t hb ka, applyMod_apply_some t hb q]
      by_cases h1 : q = kb <;> by_cases h2 : q = ka
      · have h3 : kb = ka := h1.symm.trans h2
        rw [if_pos h1, if_pos h2, if_pos h3, if_pos h3.symm, h3]
        simp only [ModVals.mk.injEq]
        refine ⟨by ring, by ring, by ring⟩
      · have h3 : ¬ kb = ka := fun hh => h2 (h1.trans hh)
        rw [if_pos h1, if_neg h2, if_neg h3, if_pos h1]
      · have h3 : ¬ ka = kb := fun hh => h1 (h2.trans hh)
        rw [if_neg h1, if_pos h2, if_neg h3, if_pos h2]
      · rw [if_neg h1, if_neg h2, if_neg h1, if_neg h2]

theorem foldl_applyMod_perm {l₁ l₂ : List Effect} (h : l₁.Perm l₂) :
    ∀ t : ModKey → ModVals, l₁.foldl applyMod t = l₂.foldl applyMod t := by
  induction h with
  | nil => intro t; rfl
  | cons x _ ih => intro t; simp only [List.foldl_cons]; exact ih _
  | swap x y l => intro t; simp only [List.foldl_cons]; rw [applyMod_rcomm]
  | trans _ _ ih₁ ih₂ => intro t; rw [ih₁ t, ih₂ t]

theorem getTransitionModifiers_perm {l₁ l₂ : List Effect} (h : l₁.Perm l₂) :
    getTransitionModifiers l₁ = getTransitionModifiers l₂ := by
  unfold getTransitionModifiers
  exact foldl_applyMod_perm (h.filter _) _

/-- C8: same-key modify rules compose multiplicatively (two 150% chance
modifiers on one category key yield a 225% multiplier, not 300%), the
resolved modifier table does not depend on the order in which the modify
rules are processed, and a transition's effective chance equals
`base * (id_modifier/100) * (category_modifier/100)` clamped to [0, 100]. -/
theorem modifiers_multiplicative_order_free (l₁ l₂ : List Effect) (h : l₁.Perm l₂) :
    (∀ k, getTransitionModifiers l₁ k = getTransitionModifiers l₂ k) ∧
    getTransitionModifiers [mod150, mod150] (ModKey.cat "X") = ⟨225, 100, 100⟩ ∧
    ∀ (mods : ModKey → ModVals) (e : Effect),
      effectiveChance mods e =
        max 0 (min 100 (e.chance * ((mods (ModKey.effId e.id)).chance / 100) *
          ((mods (ModKey.cat e.category)).chance / 100))) := by
  refine ⟨fun k => congrFun (getTransitionModifiers_perm h) k, ?_, fun mods e => rfl⟩
  have hm : modTarget mod150 = some (ModKey.cat "X") := rfl
  show applyMod (applyMod (fun _ => (⟨100, 100, 100⟩ : ModVals)) mod150) mod150
    (ModKey.cat "X") = ⟨225, 100, 100⟩
  rw [applyMod_apply_some _ hm, if_pos rfl, applyMod_apply_some _ hm, if_pos rfl]
  simp only [ModVals.mk.injEq, mod150, baseEffect]
  norm_num

/-- Witness for C8 at the concrete pair of swapped modify-rule lists. -/
theorem modifiers_multiplicative_order_free_witness :
    (∀ k, getTransitionModifiers [mod150, mod80] k =
      getTransitionModifiers [mod80, mod150] k) ∧
    getTransitionModifiers [mod150, mod150] (ModKey.cat "X") = ⟨225, 100, 100⟩ ∧
    ∀ (mods : ModKey → ModVals) (e : Effect),
      effectiveChance mods e =
        max 0 (min 100 (e.chance * ((mods (ModKey.effId e.id)).chance / 100) *
          ((mods (ModKey.cat e.category)).chance / 100))) :=
  modifiers_multiplicative_order_free [mod150, mod80] [mod80, mod150]
    (List.Perm.swap mod80 mod150 [])

/-! ## Frame and positivity lemmas for the transition stage -/

theorem spawnStep_frame (db : Db) (loc : String) (c : Int) (s : SimState) (eid : Nat) :
    ∃ ne lc cp, spawnStep db loc c s eid =
      { s with newEntities := ne, locsEntered := lc, catsProduced := cp } ∧
      (0 < c → mapPos s.newEntities → mapPos ne) := by
  unfold spawnStep
  cases hc : getEntityCat db eid with
  | none => exact ⟨_, _, s.catsProduced, rfl, fun hc0 h => mapPos_dincr h hc0⟩
  | some cat => exact ⟨_, _, _, rfl, fun hc0 h => mapPos_dincr h hc0⟩

theorem spawnFold_frame (db : Db) (loc : String) (c : Int) :
    ∀ (l : List Nat) (s : SimState),
    ∃ ne lc cp, l.foldl (spawnStep db loc c) s =
      { s with newEntities := ne, locsEntered := lc, catsProduced := cp } ∧
      (0 < c → mapPos s.newEntities → mapPos ne)
  | [], s => ⟨s.newEntities, s.locsEntered, s.catsProduced, rfl, fun _ h => h⟩
  | eid :: rest, s => by
      rw [List.foldl_cons]
      obtain ⟨ne0, lc0, cp0, he0, hp0⟩ := spawnStep_frame db loc c s eid
      rw [he0]
      obtain ⟨ne, lc, cp, heq, hpos⟩ := spawnFold_frame db loc c rest
        { s with newEntities := ne0, locsEntered := lc0, catsProduced := cp0 }
      rw [heq]
      exact ⟨ne, lc, cp, rfl, fun hc0 h => hpos hc0 (hp0 hc0 h)⟩

theorem spawnGenome_frame (db : Db) (loc : String) (c : Int) (s : SimState) :
    ∃ ne lc cp, spawnGenome db loc c s =
      { s with newEntities := ne, locsEntered := lc, catsProduced := cp } ∧
      (0 < c → mapPos s.newEntities → mapPos ne) :=
  spawnFold_frame db loc c db.genomeEntityIds s

theorem produceOutputs_frame (db : Db) (succ : Int) :
    ∀ (outs : List EntityOutput) (s : SimState),
    ∃ ne lc cp, produceOutputs db succ outs s =
      { s with newEntities := ne, locsEntered := lc, catsProduced := cp } ∧
      (0 < succ → (∀ o ∈ outs, o.isUnpackGenome = false → 0 < o.amount) →
        mapPos s.newEntities → mapPos ne)
  | [], s => ⟨s.newEntities, s.locsEntered, s.catsProduced, rfl, fun _ _ h => h⟩
  | out :: rest, s => by
      rw [produceOutputs]
      by_cases hu : out.isUnpackGenome
      · rw [if_pos hu]
        obtain ⟨ne0, lc0, cp0, he0, hp0⟩ := spawnGenome_frame db out.loc succ s
        rw [he0]
        obtain ⟨ne, lc, cp, heq, hpos⟩ := produceOutputs_frame db succ rest
          { s with newEntities := ne0, locsEntered := lc0, catsProduced := cp0 }
        rw [heq]
        refine ⟨ne, lc, cp, rfl, fun hs ho h => ?_⟩
        exact hpos hs (fun o homem hno => ho o (List.mem_cons_of_mem _ homem) hno)
          (hp0 hs h)
      · rw [if_neg hu]
        by_cases hex : canEntityExist db out.entityId
        · rw [if_pos hex]
          cases hc : getEntityCat db out.entityId with
          | none =>
              obtain ⟨ne, lc, cp, heq, hpos⟩ := produceOutputs_frame db succ rest
                { s with
                  newEntities := dincr s.newEntities (out.entityId, out.loc)
                    (out.amount * succ),
                  locsEntered := addOnce s.locsEntered out.loc }
              rw [heq]
              refine ⟨ne, lc, cp, rfl, fun hs ho h => ?_⟩
              refine hpos hs (fun o homem hno => ho o (List.mem_cons_of_mem _ homem) hno) ?_
              exact mapPos_dincr h
                (mul_pos (ho out (List.mem_cons_self _ _) (Bool.not_eq_true _ ▸ hu)) hs)
          | some cat =>
              obtain ⟨ne, lc, cp, heq, hpos⟩ := produceOutputs_frame db succ rest
                { s with
                  newEntities := dincr s.newEntities (out.entityId, out.loc)
                    (out.amount * succ),
                  locsEntered := addOnce s.locsEntered out.loc,
                  catsProduced := addOnce s.catsProduced cat }
              rw [heq]
              refine ⟨ne, lc, cp, rfl, fun hs ho h => ?_⟩
              refine hpos hs (fun o homem hno => ho o (List.mem_cons_of_mem _ homem) hno) ?_
              exact mapPos_dincr h
                (mul_pos (ho out (List.mem_cons_self _ _) (Bool.not_eq_true _ ▸ hu)) hs)
        · rw [if_neg hex]
          exact produceOutputs_frame db succ rest s |>.imp fun ne h =>
            h.imp fun lc h => h.imp fun cp h =>
              ⟨h.1, fun hs ho hm =>
                h.2 hs (fun o homem hno => ho o (List.mem_cons_of_mem _ homem) hno) hm⟩

theorem consumeInputs_mapPos (succ : Int) :
    ∀ (inputs : List EntityInput) (ents ents2 : EMap),
    consumeInputs succ inputs ents = some ents2 → mapPos ents → mapPos ents2
  | [], ents, ents2, h, hm => by
      rw [consumeInputs] at h
      exact Option.some.inj h ▸ hm
  | inp :: rest, ents, ents2, h, hm => by
      rw [consumeInputs] at h
      by_cases hc : inp.consumed
      · rw [if_pos hc] at h
        cases hg : dget ents (inp.entityId, inp.loc) with
        | none => rw [hg] at h; exact absurd h (by simp)
        | some v =>
            rw [hg] at h
            dsimp only at h
            by_cases hv : v - inp.amount * succ ≤ 0
            · rw [if_pos hv] at h
              exact consumeInputs_mapPos succ rest _ ents2 h (mapPos_ddel hm _)
            · rw [if_neg hv] at h
              exact consumeInputs_mapPos succ rest _ ents2 h
                (mapPos_dset hm (by omega))
      · rw [if_neg hc] at h
        exact consumeInputs_mapPos succ rest ents ents2 h hm

/-- The queue of a successfully evaluated transition is unchanged or extended
by exactly one entry whose due turn is the current turn plus 100 and whose
amount is positive. -/
theorem applyTransition_queue_shape {db : Db} {mods : ModKey → ModVals}
    {eff : Effect} {r : RStream} {s : SimState} {i : Nat} {out : SimState × Nat}
    (h : applyTransition db mods eff r s i = some out) :
    out.1.abQueue = s.abQueue ∨
      ∃ b : ℚ, 0 < b ∧ out.1.abQueue = s.abQueue ++ [(s.turn + 100, b)] := by
  unfold applyTransition at h
  cases hfe : feasible s.entities eff.inputs none with
  | none => rw [hfe] at h; exact absurd h (by simp)
  | some p =>
      obtain ⟨avail, minPoss⟩ := p
      rw [hfe] at h
      dsimp only at h
      by_cases ha : avail = false
      · rw [if_pos ha] at h
        exact Or.inl (by rw [← Option.some.inj h])
      · rw [if_neg ha] at h
        by_cases hm0 : minPoss = some 0
        · rw [if_pos hm0] at h
          exact Or.inl (by rw [← Option.some.inj h])
        · rw [if_neg hm0] at h
          by_cases htc : effectiveChance mods eff ≤ 0
          · rw [if_pos htc] at h
            exact Or.inl (by rw [← Option.some.inj h])
          · rw [if_neg htc] at h
            cases hmp : minPoss with
            | none => rw [hmp] at h; exact absurd h (by simp)
            | some mp =>
                rw [hmp] at h
                dsimp only at h
                by_cases hsc : countSucc r i mp.toNat (effectiveChance mods eff) = 0
                · rw [if_pos hsc] at h
                  exact Or.inl (by rw [← Option.some.inj h])
                · rw [if_neg hsc] at h
                  cases hco : consumeInputs (↑(countSucc r i mp.toNat
                      (effectiveChance mods eff))) eff.inputs s.entities with
                  | none => rw [hco] at h; exact absurd h (by simp)
                  | some ents2 =>
                      rw [hco] at h
                      dsimp only at h
                      obtain ⟨ne, lc, cp, heq, -⟩ := produceOutputs_frame db _
                        eff.outputs { s with entities := ents2 }
                      rw [heq] at h
                      set abR := eff.antibodyResponse *
                        ((mods (ModKey.effId eff.id)).antibody / 100) *
                        ((mods (ModKey.cat eff.category)).antibody / 100) with habR
                      by_cases hifn : eff.interferonProduction *
                          ((mods (ModKey.effId eff.id)).interferon / 100) *
                          ((mods (ModKey.cat eff.category)).interferon / 100) > 0 <;>
                        by_cases hab : abR > 0 <;>
                        simp only [if_pos, if_neg, hifn, hab, ite_true, ite_false,
                          if_true, if_false] at h <;>
                        rw [← Option.some.inj h]
                      · right
                        refine ⟨abR * ↑(countSucc r i mp.toNat (effectiveChance mods eff)),
                          mul_pos hab (by exact_mod_cast Nat.pos_of_ne_zero hsc), rfl⟩
                      · exact Or.inl rfl
                      · right
                        refine ⟨abR * ↑(countSucc r i mp.toNat (effectiveChance mods eff)),
                          mul_pos hab (by exact_mod_cast Nat.pos_of_ne_zero hsc), rfl⟩
                      · exact Or.inl rfl

/-! ## C2: antibody elimination is greedy, not proportional -/

/-- C2 (code_bug evidence): with two extracellular kinds of 10 units each and
10 active antibodies, the elimination loop removes all 10 from the first kind
in map order and none from the second — not 5 and 5 as a proportional spread
of equal shares would give — while still eliminating `min(20, 10) = 10` in
total and zeroing the active pool. -/
theorem antibody_elimination_greedy :
    (processAntibodies abState).map (fun t => (t.entities, t.abActive)) =
      some ([((2, "Extracellular"), 10)], 0) := by
  rfl

/-! ## C3: zero-amount inputs crash the feasibility computation -/

/-- C3 (code_bug evidence): a transition whose input has amount 0 makes
`_apply_transition` evaluate `available // 0` and raise `ZeroDivisionError`
(the evaluation yields `none`), while a transition whose input references a
nonexistent entity kind is skipped silently with the state unchanged. -/
theorem zero_amount_input_divides_by_zero :
    applyTransition dbVR (getTransitionModifiers []) zeroAmountEffect r0 virState 0 =
      none ∧
    applyTransition dbVR (getTransitionModifiers []) missingKindEffect r0 virState 0 =
      some (virState, 0) := by
  exact ⟨rfl, rfl⟩

/-! ## C4: the termination checker -/

/-- C4 counterexample: a population of 10000 entities of category
"Viral complex" triggers Victory although the total count of entities whose
category is "Virion" is 0, below the 10000 threshold — refuting the claimed
iff between Victory and the Virion-category total. -/
theorem victory_counts_viral_complexes :
    (checkConditions dbVC vcState).isVictory = true ∧
    claimVirionOnlyTotal dbVC vcState < winThreshold := by
  exact ⟨rfl, by decide⟩

/-- C4 amended: after each turn the checker recomputes the total over settled
entities, new entities and both polyprotein maps; Extinction is set iff that
total is 0; Victory is set iff the total is nonzero and the count of entities
whose category is Virion or Viral complex reaches the threshold 10000; and a
turn requested on an ended run leaves the state untouched. -/
theorem termination_checker_spec (db : Db) (effs glEffs : List Effect) (r : RStream)
    (s : SimState) (h1 : s.isVictory = false) (h2 : s.extinction = false) :
    ((checkConditions db s).extinction = true ↔ grandTotal db s = 0) ∧
    ((checkConditions db s).isVictory = true ↔
      (grandTotal db s ≠ 0 ∧ virionTotal db s ≥ winThreshold)) ∧
    (∀ (t : SimState) (i : Nat), t.isEnded = true →
      runTurn db effs glEffs r t i = some (t, i)) := by
  refine ⟨?_, ?_, fun t i ht => ?_⟩
  · unfold checkConditions
    split_ifs with hz hv
    · simpa using hz
    · simpa [h2] using fun hc => absurd hc hz
    · simpa [h2] using fun hc => absurd hc hz
  · unfold checkConditions
    split_ifs with hz hv
    · simp [h1, hz]
    · simp [hz, hv]
    · simp [h1, hz, hv]
  · unfold runTurn
    rw [if_pos (Or.inr ht)]

/-- Witness for the amended C4 at the viral-complex population. -/
theorem termination_checker_spec_witness :
    (((checkConditions dbVC vcState).extinction = true ↔
      grandTotal dbVC vcState = 0) ∧
    ((checkConditions dbVC vcState).isVictory = true ↔
      (grandTotal dbVC vcState ≠ 0 ∧ virionTotal dbVC vcState ≥ winThreshold)) ∧
    (∀ (t : SimState) (i : Nat), t.isEnded = true →
      runTurn dbVC [] [] r0 t i = some (t, i))) :=
  termination_checker_spec dbVC [] [] r0 vcState rfl rfl

/-! ## C5 / C10: antibody manifestation timing and truncation -/

/-- When no entity is stored at all, `_process_antibodies` only flushes the
due queue entries into the active pool. -/
theorem processAntibodies_no_ex (s : SimState) (he : s.entities = []) :
    processAntibodies s =
      some { s with abActive := (flushQueue s.turn s.abQueue s.abActive []).1,
                    abQueue := (flushQueue s.turn s.abQueue s.abActive []).2 } := by
  unfold processAntibodies
  dsimp only
  rw [he]
  by_cases hact : (flushQueue s.turn s.abQueue s.abActive []).1 > 0
  · rw [if_pos hact]
    simp [extracellularOf]
  · rw [if_neg hact]

/-- C10: when a queued manifestation entry `(d, amount)` is flushed, exactly
`int(amount)` — the truncation toward zero — is added to antibody-active; an
entry whose amount lies strictly between 0 and 1 contributes nothing. -/
theorem manifestation_flush_truncates (s : SimState) (d : Nat) (a : ℚ)
    (hq : s.abQueue = [(d, a)]) (hd : d ≤ s.turn) (he : s.entities = []) :
    processAntibodies s =
      some { s with abActive := s.abActive + pyTrunc a, abQueue := [] } ∧
    (0 ≤ a → pyTrunc a = ⌊a⌋) ∧ (a < 0 → pyTrunc a = ⌈a⌉) ∧
    (0 < a → a < 1 → pyTrunc a = 0) := by
  refine ⟨?_, fun h => if_pos h, fun h => if_neg (not_le.mpr h), fun h1 h2 => ?_⟩
  · rw [processAntibodies_no_ex s he, hq]
    simp only [flushQueue, if_pos hd, List.nil_append]
  · show (if 0 ≤ a then ⌊a⌋ else ⌈a⌉) = 0
    rw [if_pos h1.le, Int.floor_eq_zero_iff]
    exact Set.mem_Ico.mpr ⟨h1.le, h2⟩

/-- Witness for C10 at the entry `(3, 7/2)` flushed at turn 5. -/
theorem manifestation_flush_truncates_witness :
    (processAntibodies truncWitnessState =
      some { truncWitnessState with
        abActive := truncWitnessState.abActive + pyTrunc (7/2), abQueue := [] } ∧
    (0 ≤ (7/2 : ℚ) → pyTrunc (7/2) = ⌊(7/2 : ℚ)⌋) ∧
    ((7/2 : ℚ) < 0 → pyTrunc (7/2) = ⌈(7/2 : ℚ)⌉) ∧
    (0 < (7/2 : ℚ) → (7/2 : ℚ) < 1 → pyTrunc (7/2) = 0)) :=
  manifestation_flush_truncates truncWitnessState 3 (7/2) rfl (by decide) rfl

/-- C5 counterexample: the response of amount 1/2 enqueued at turn 0 with due
turn 100 does not become active at turn 100 — the flush adds `int(1/2) = 0`
and removes the entry, so the amount never activates at all. -/
theorem fractional_manifestation_never_activates :
    (processAntibodies fractionalQueueState).map (fun t => (t.abActive, t.abQueue)) =
      some (0, ([] : List (Nat × ℚ))) := by
  rw [processAntibodies_no_ex fractionalQueueState rfl]
  have hpy : pyTrunc ((2 : ℚ)⁻¹) = 0 := by
    show (if 0 ≤ ((2 : ℚ))⁻¹ then ⌊((2 : ℚ))⁻¹⌋ else ⌈((2 : ℚ))⁻¹⌉) = 0
    rw [if_pos (by norm_num), Int.floor_eq_zero_iff]
    exact Set.mem_Ico.mpr ⟨by norm_num, by norm_num⟩
  simp [flushQueue, fractionalQueueState, mkState, hpy]

/-- C5 amended: an antibody response generated by a transition firing at the
current turn is enqueued with due turn `current + 100` and a positive amount;
an entry due at `T + 100` stays queued and contributes nothing to the active
pool at every earlier turn, and at turn `T + 100` it is removed with
`int(amount)` added to the active pool. -/
theorem antibody_manifestation_timing (db : Db) (mods : ModKey → ModVals)
    (eff : Effect) (r : RStream) (s t : SimState) (i : Nat) (out : SimState × Nat)
    (T : Nat) (a : ℚ) (h : applyTransition db mods eff r s i = some out) :
    (out.1.abQueue = s.abQueue ∨
      ∃ b : ℚ, 0 < b ∧ out.1.abQueue = s.abQueue ++ [(s.turn + 100, b)]) ∧
    (t.abQueue = [(T + 100, a)] → t.entities = [] →
      (t.turn < T + 100 → processAntibodies t = some t) ∧
      (t.turn = T + 100 → processAntibodies t =
        some { t with abActive := t.abActive + pyTrunc a, abQueue := [] })) := by
  refine ⟨applyTransition_queue_shape h, fun hq he => ⟨fun hlt => ?_, fun heq => ?_⟩⟩
  · rw [processAntibodies_no_ex t he, hq]
    simp only [flushQueue, if_neg (by omega : ¬ (T + 100 ≤ t.turn)), List.nil_append]
    rw [← hq]
  · rw [processAntibodies_no_ex t he, hq]
    simp only [flushQueue, if_pos (by omega : T + 100 ≤ t.turn), List.nil_append]

/-- Witness for the amended C5: a skipped transition keeps the queue, and the
fractional entry of `fractionalQueueState` follows the flush discipline. -/
theorem antibody_manifestation_timing_witness :
    (((virState, 0) : SimState × Nat).1.abQueue = virState.abQueue ∨
      ∃ b : ℚ, 0 < b ∧ ((virState, 0) : SimState × Nat).1.abQueue =
        virState.abQueue ++ [(virState.turn + 100, b)]) ∧
    (fractionalQueueState.abQueue = [(0 + 100, 1/2)] →
      fractionalQueueState.entities = [] →
      (fractionalQueueState.turn < 0 + 100 →
        processAntibodies fractionalQueueState = some fractionalQueueState) ∧
      (fractionalQueueState.turn = 0 + 100 →
        processAntibodies fractionalQueueState =
          some { fractionalQueueState with
            abActive := fractionalQueueState.abActive + pyTrunc (1/2),
            abQueue := [] })) :=
  antibody_manifestation_timing dbVR (getTransitionModifiers []) missingKindEffect r0
    virState fractionalQueueState 0 (virState, 0) 0 (1/2) rfl

/-! ## C6: compartment migration -/

/-- C6 counterexample: three settled units of kind 5 sit at the source of a
100%-chance migration rule with no kind filter, yet nothing moves, because
`can_entity_exist` fails for the unknown kind and the unit is silently
excluded from the per-unit rolls. -/
theorem migration_skips_nonexistent_kinds :
    applyLocationChange emptyDb migrationEffect r0 unknownKindState 0 =
      some (unknownKindState, 0) ∧
    dget unknownKindState.entities (5, "Cytosol") = none :=
  ⟨rfl, rfl⟩

/-- C6 amended: for a migration rule with distinct nonempty source and
target, every settled unit at the source that matches the kind filter and
passes `can_entity_exist` rolls once at the per-unit chance; the successful
rolls move one-for-one from the source count to the target count. -/
theorem migration_moves_each_existing_unit (db : Db) (eff : Effect) (r : RStream)
    (e : Nat) (cnt : Int) (i : Nat)
    (hsrc : eff.sourceLoc ≠ "") (htgt : eff.targetLoc ≠ "")
    (hne : eff.sourceLoc ≠ eff.targetLoc) (hch : 0 < eff.locationChangeChance)
    (hok : canEntityExist db e = true)
    (haff : eff.affectedEntityId = none ∨ eff.affectedEntityId = some e)
    (hcnt : 0 < cnt) :
    ∃ s', applyLocationChange db eff r (mkState [((e, eff.sourceLoc), cnt)]) i =
        some (s', i + cnt.toNat) ∧
      dget s'.entities (e, eff.targetLoc) =
        (if 0 < countSucc r i cnt.toNat eff.locationChangeChance
          then some (countSucc r i cnt.toNat eff.locationChangeChance : Int)
          else none) ∧
      dget s'.entities (e, eff.sourceLoc) =
        (if (countSucc r i cnt.toNat eff.locationChangeChance : Int) < cnt
          then some (cnt - countSucc r i cnt.toNat eff.locationChangeChance)
          else none) := by
  have hkey : ((e, eff.targetLoc) : EKey) ≠ (e, eff.sourceLoc) := by
    intro hk
    exact hne (congrArg Prod.snd hk).symm
  have hkey2 : ((e, eff.sourceLoc) : EKey) ≠ (e, eff.targetLoc) := fun hk => hkey hk.symm
  have hmvle : (countSucc r i cnt.toNat eff.locationChangeChance : Int) ≤ cnt := by
    have h1 := countSucc_le r i cnt.toNat eff.locationChangeChance
    omega
  unfold applyLocationChange
  rw [if_neg (by push_neg; exact ⟨hsrc, htgt, hch⟩)]
  have hlist : entitiesToMove db eff (mkState [((e, eff.sourceLoc), cnt)]).entities
      = [(e, cnt)] := by
    unfold entitiesToMove mkState
    rcases haff with h | h <;> simp [h, hok]
  rw [hlist]
  unfold moveEntities
  dsimp only
  by_cases hz : countSucc r i cnt.toNat eff.locationChangeChance = 0
  · rw [if_pos hz]
    refine ⟨_, rfl, ?_, ?_⟩
    · rw [hz]
      simp [mkState, dget, hkey, hne]
    · rw [hz]
      rw [if_pos (by omega : ((0 : Nat) : Int) < cnt)]
      simp [mkState, dget]
  · rw [if_neg hz]
    have hget : dget (mkState [((e, eff.sourceLoc), cnt)]).entities
        (e, eff.sourceLoc) = some cnt := by simp [mkState, dget]
    rw [hget]
    dsimp only
    by_cases hv2 : cnt - (countSucc r i cnt.toNat eff.locationChangeChance : Int) ≤ 0
    · rw [if_pos hv2]
      have hddel : ddel (mkState [((e, eff.sourceLoc), cnt)]).entities
          (e, eff.sourceLoc) = [] := by simp [mkState, ddel]
      rw [hddel]
      have hdincr : dincr [] (e, eff.targetLoc)
          (countSucc r i cnt.toNat eff.locationChangeChance : Int) =
          [((e, eff.targetLoc), (countSucc r i cnt.toNat eff.locationChangeChance : Int))] := by
        simp [dincr, dget]
      rw [hdincr, moveEntities]
      refine ⟨_, rfl, ?_, ?_⟩
      · rw [if_pos (Nat.pos_of_ne_zero hz)]
        simp [dget]
      · rw [if_neg (by omega)]
        simp [dget, hkey]
    · rw [if_neg hv2]
      have hdset : dset (mkState [((e, eff.sourceLoc), cnt)]).entities
          (e, eff.sourceLoc) (cnt - (countSucc r i cnt.toNat eff.locationChangeChance : Int)) =
          [((e, eff.sourceLoc),
            cnt - (countSucc r i cnt.toNat eff.locationChangeChance : Int))] := by
        simp [mkState, dset]
      rw [hdset]
      have hdincr : dincr [((e, eff.sourceLoc),
            cnt - (countSucc r i cnt.toNat eff.locationChangeChance : Int))]
          (e, eff.targetLoc) (countSucc r i cnt.toNat eff.locationChangeChance : Int) =
          [((e, eff.sourceLoc),
            cnt - (countSucc r i cnt.toNat eff.locationChangeChance : Int)),
           ((e, eff.targetLoc), (countSucc r i cnt.toNat eff.locationChangeChance : Int))] := by
        simp [dincr, dget, hkey2]
      rw [hdincr, moveEntities]
      refine ⟨_, rfl, ?_, ?_⟩
      · rw [if_pos (Nat.pos_of_ne_zero hz)]
        simp [dget, hkey2]
      · rw [if_pos (by omega)]
        simp [dget]

/-- Witness for the amended C6: kind 5 (a Virion known to `dbU`) migrating
from Extracellular to Cytosol at 100% per-unit chance. -/
theorem migration_moves_each_existing_unit_witness :
    ∃ s', applyLocationChange dbU migrationEffect r0
        (mkState [((5, migrationEffect.sourceLoc), 3)]) 0 =
        some (s', 0 + (3 : Int).toNat) ∧
      dget s'.entities (5, migrationEffect.targetLoc) =
        (if 0 < countSucc r0 0 (3 : Int).toNat migrationEffect.locationChangeChance
          then some (countSucc r0 0 (3 : Int).toNat
            migrationEffect.locationChangeChance : Int)
          else none) ∧
      dget s'.entities (5, migrationEffect.sourceLoc) =
        (if (countSucc r0 0 (3 : Int).toNat
            migrationEffect.locationChangeChance : Int) < 3
          then some ((3 : Int) - (countSucc r0 0 (3 : Int).toNat
            migrationEffect.locationChangeChance : Int))
          else none) :=
  migration_moves_each_existing_unit dbU migrationEffect r0 5 3 0 (by decide) (by decide)
    (by decide) (by norm_num [migrationEffect, baseEffect]) rfl (Or.inl rfl) (by decide)

/-! ## C9: every completed turn ends on fully merged state -/

theorem checkConditions_fields (db : Db) (s : SimState) :
    (checkConditions db s).entities = s.entities ∧
    (checkConditions db s).newEntities = s.newEntities ∧
    (checkConditions db s).polys = s.polys ∧
    (checkConditions db s).newPolys = s.newPolys ∧
    (checkConditions db s).history = s.history ∧
    (checkConditions db s).turn = s.turn ∧
    (checkConditions db s).ifnLevel = s.ifnLevel ∧
    (checkConditions db s).abActive = s.abActive ∧
    (checkConditions db s).abQueue = s.abQueue := by
  unfold checkConditions
  split_ifs <;> exact ⟨rfl, rfl, rfl, rfl, rfl, rfl, rfl, rfl, rfl⟩

theorem recordHistory_fields (db : Db) (s : SimState) :
    (recordHistory db s).entities = s.entities ∧
    (recordHistory db s).newEntities = s.newEntities ∧
    (recordHistory db s).polys = s.polys ∧
    (recordHistory db s).newPolys = s.newPolys ∧
    (recordHistory db s).history = s.history ++ [(s.turn, histCounts db s)] ∧
    (recordHistory db s).turn = s.turn ∧
    (recordHistory db s).ifnLevel = s.ifnLevel ∧
    (recordHistory db s).abActive = s.abActive ∧
    (recordHistory db s).abQueue = s.abQueue :=
  ⟨rfl, rfl, rfl, rfl, rfl, rfl, rfl, rfl, rfl⟩

theorem histCounts_congr (db : Db) {s t : SimState} (h1 : t.entities = s.entities)
    (h2 : t.polys = s.polys) (h3 : t.newPolys = s.newPolys) :
    histCounts db t = histCounts db s := by
  unfold histCounts
  rw [h1, h2, h3]

/-- C9: a completed turn ends with both newly-produced maps empty (the second
merge precedes the history snapshot and the termination check), and the
history entry recorded this turn tabulates exactly the final merged state. -/
theorem turn_ends_with_merged_state (db : Db) (effs glEffs : List Effect)
    (r : RStream) (s : SimState) (i : Nat) (out : SimState × Nat)
    (hrun : s.isRunning = true) (hend : s.isEnded = false)
    (h : runTurn db effs glEffs r s i = some out) :
    out.1.newEntities = [] ∧ out.1.newPolys = [] ∧
    ∃ h0, out.1.history = h0 ++ [(out.1.turn, histCounts db out.1)] := by
  unfold runTurn at h
  rw [if_neg (by simp [hrun, hend])] at h
  simp only [Option.bind_eq_some] at h
  obtain ⟨p2, h2, p3, h3, p4, h4, p5, h5, p6, h6, p7, h7, s9, h9, hfin⟩ := h
  have hout : out.1 = checkConditions db (recordHistory db (mergeNew s9)) := by
    rw [← Option.some.inj hfin]
  obtain ⟨hc1, hc2, hc3, hc4, hc5, hc6, -, -, -⟩ :=
    checkConditions_fields db (recordHistory db (mergeNew s9))
  obtain ⟨hr1, hr2, hr3, hr4, hr5, hr6, -, -, -⟩ :=
    recordHistory_fields db (mergeNew s9)
  refine ⟨?_, ?_, ⟨(mergeNew s9).history, ?_⟩⟩
  · rw [hout, hc2, hr2]
    rfl
  · rw [hout, hc4, hr4]
    rfl
  · rw [hout, hc5, hr5, hc6, hr6]
    have hcong : histCounts db (checkConditions db (recordHistory db (mergeNew s9))) =
        histCounts db (mergeNew s9) := by
      refine histCounts_congr db ?_ ?_ ?_
      · rw [hc1, hr1]
      · rw [hc3, hr3]
      · rw [hc4, hr4]
    rw [← hout, hout, hcong]

/-- Witness for C9: one ruleless turn on the empty population. -/
theorem turn_ends_with_merged_state_witness :
    ((runTurn dbVR [] [] r0 (mkState []) 0).get (by rfl)).1.newEntities = [] ∧
    ((runTurn dbVR [] [] r0 (mkState []) 0).get (by rfl)).1.newPolys = [] ∧
    ∃ h0, ((runTurn dbVR [] [] r0 (mkState []) 0).get (by rfl)).1.history =
      h0 ++ [(((runTurn dbVR [] [] r0 (mkState []) 0).get (by rfl)).1.turn,
        histCounts dbVR ((runTurn dbVR [] [] r0 (mkState []) 0).get (by rfl)).1)] :=
  turn_ends_with_merged_state dbVR [] [] r0 (mkState []) 0 _ rfl rfl
    (Option.some_get _).symm

/-! ## C1: Scenario B fires as a batch -/

theorem r0_ok : r0.ok := fun _ => ⟨le_refl 0, by norm_num [r0]⟩

theorem scenarioB_chance :
    effectiveChance (fun _ => (⟨100, 100, 100⟩ : ModVals)) scenarioBEffect = 100 := by
  show max (0 : ℚ) (min 100 (100 * (100 / 100) * (100 / 100))) = 100
  rw [show (100 : ℚ) * (100 / 100) * (100 / 100) = 100 from by norm_num, min_self,
    max_eq_right (by norm_num : (0 : ℚ) ≤ 100)]

theorem scenarioB_apply (r : RStream) (hr : r.ok) :
    applyTransition dbVR (getTransitionModifiers [scenarioBEffect]) scenarioBEffect r
      sB1 0 = some (sB2, 10) := by
  have h100 : countSucc r 0 10 100 = 10 := countSucc_hundred hr 0 10 le_rfl
  rw [show getTransitionModifiers [scenarioBEffect] =
    (fun _ => (⟨100, 100, 100⟩ : ModVals)) from rfl]
  unfold applyTransition
  rw [show feasible sB1.entities scenarioBEffect.inputs none =
    some (true, some 10) from rfl]
  try dsimp only
  rw [if_neg (show ¬ (true = false) from by decide),
    if_neg (show ¬ (some (10 : Int) = some 0) from by decide), scenarioB_chance,
    if_neg (show ¬ ((100 : ℚ) ≤ 0) from by decide)]
  try dsimp only
  rw [show Int.toNat 10 = 10 from rfl, h100,
    if_neg (show ¬ ((10 : Nat) = 0) from by decide),
    show consumeInputs ((10 : Nat) : Int) scenarioBEffect.inputs sB1.entities =
      some [] from rfl]
  try dsimp only
  rw [show produceOutputs dbVR ((10 : Nat) : Int) scenarioBEffect.outputs
    { sB1 with entities := [] } = sB2 from rfl]
  rw [if_neg (show ¬ (scenarioBEffect.interferonProduction *
      ((100 : ℚ) / 100) * ((100 : ℚ) / 100) > 0) from by
    norm_num [scenarioBEffect, baseEffect])]
  rw [if_neg (show ¬ (scenarioBEffect.antibodyResponse *
      ((100 : ℚ) / 100) * ((100 : ℚ) / 100) > 0) from by
    norm_num [scenarioBEffect, baseEffect])]

theorem scenarioB_transStep (r : RStream) (hr : r.ok) :
    transitionsStep dbVR [scenarioBEffect] r sB1 0 = some (sB2, 10) := by
  unfold transitionsStep
  rw [show sortById (List.filter (fun e => decide (e.effectType = "Transition"))
    [scenarioBEffect]) = [scenarioBEffect] from rfl]
  unfold seqSteps
  try dsimp only
  rw [scenarioB_apply r hr]
  rfl

theorem scenarioB_degrade (r : RStream) (hr : r.ok) :
    degradationStep dbVR r sB2 10 = some (sB2, 30) := by
  have h0a : countSucc r 10 20 0 = 0 := countSucc_zeroChance hr 10 20 le_rfl
  unfold degradationStep
  try dsimp only
  rw [show degradeList dbVR r sB2.ifnLevel sB2.entities sB2.entities 10 =
    some (sB2.entities, 10) from rfl]
  try dsimp only
  rw [show sB2.newEntities = [((2, "Cytosol"), 20)] from rfl]
  unfold degradeList
  rw [show getEntityCat dbVR 2 = some "RNA" from rfl]
  try dsimp only
  rw [show adjustedChance dbVR "RNA" "Cytosol" sB2.ifnLevel = 0 from rfl,
    show Int.toNat 20 = 20 from rfl, h0a, if_pos rfl]
  unfold degradeList
  rfl

theorem scenarioB_turn (r : RStream) (hr : r.ok) :
    runTurn dbVR [scenarioBEffect] [] r (startState dbVR 1) 0 = some (sBF, 30) := by
  unfold runTurn
  rw [if_neg (show ¬ ((startState dbVR 1).isRunning = false ∨
    (startState dbVR 1).isEnded = true) from by decide)]
  try dsimp only
  rw [show mergeNew { startState dbVR 1 with turn := (startState dbVR 1).turn + 1 } =
    sB1 from rfl]
  rw [show [scenarioBEffect] ++ ([] : List Effect) = [scenarioBEffect] from rfl]
  rw [scenarioB_transStep r hr]
  simp only [Option.some_bind]
  rw [show translationsStep dbVR [scenarioBEffect] r sB2 10 = some (sB2, 10) from rfl]
  simp only [Option.some_bind]
  rw [show locationStep dbVR [scenarioBEffect] r sB2 10 = some (sB2, 10) from rfl]
  simp only [Option.some_bind]
  rw [show cleavageStep r sB2 10 = some (sB2, 10) from rfl]
  simp only [Option.some_bind]
  rw [scenarioB_degrade r hr]
  simp only [Option.some_bind]
  rw [show polyDegradationStep dbVR r sB2 30 = some (sB2, 30) from rfl]
  simp only [Option.some_bind]
  rw [show ifnDecayStep dbVR sB2 = sB2 from rfl]
  rw [show processAntibodies sB2 = some sB2 from rfl]
  simp only [Option.some_bind]
  rw [show checkConditions dbVR (recordHistory dbVR (mergeNew sB2)) = sBF from rfl]

theorem scenarioB_map (r : RStream) (hr : r.ok) :
    (runTurns dbVR [scenarioBEffect] [] r 1 1).map
      (fun p => (dget p.1.entities (1, "Extracellular"),
                 dget p.1.entities (2, "Cytosol"))) =
      some (none, some 20) := by
  unfold runTurns
  rw [show runTurns dbVR [scenarioBEffect] [] r 1 0 =
    some (startState dbVR 1, 0) from rfl]
  dsimp only [Option.bind]
  rw [scenarioB_turn r hr]
  rfl

/-- C1 counterexample: Scenario B does not yield 9 virions and 2 RNA — on
the all-zero stream (and indeed on every valid stream) the observed result
is 0 virions and 20 RNA. -/
theorem scenarioB_not_nine_and_two :
    (runTurns dbVR [scenarioBEffect] [] r0 1 1).map
      (fun p => (dget p.1.entities (1, "Extracellular"),
                 dget p.1.entities (2, "Cytosol"))) ≠
      some (some 9, some 2) := by
  rw [scenarioB_map r0 r0_ok]
  decide

/-- C1 amended: from 10 virions at Extracellular with the Scenario B rule
(consume 1 virion at Extracellular, produce 2 RNA at Cytosol, 100% chance)
and no degradation, one turn consumes all 10 virions — the rule fires
`n = 10 // 1 = 10` times, each at 100% — leaving no virion key and exactly
20 RNA at Cytosol. -/
theorem scenarioB_batch_fires_all (r : RStream) (hr : r.ok) :
    (runTurns dbVR [scenarioBEffect] [] r 1 1).map
      (fun p => (dget p.1.entities (1, "Extracellular"),
                 dget p.1.entities (2, "Cytosol"))) =
      some (none, some 20) :=
  scenarioB_map r hr

/-- Witness for the amended C1 on the all-zero stream. -/
theorem scenarioB_batch_fires_all_witness :
    (runTurns dbVR [scenarioBEffect] [] r0 1 1).map
      (fun p => (dget p.1.entities (1, "Extracellular"),
                 dget p.1.entities (2, "Cytosol"))) =
      some (none, some 20) :=
  scenarioB_batch_fires_all r0 r0_ok

/-! ## C7: turn-boundary invariants -/

theorem pyTrunc_nonneg {a : ℚ} (ha : 0 ≤ a) : 0 ≤ pyTrunc a := by
  unfold pyTrunc
  rw [if_pos ha]
  exact Int.floor_nonneg.mpr ha

theorem flushQueue_inv (t : Nat) :
    ∀ (q : List (Nat × ℚ)) (act : Int) (nq : List (Nat × ℚ)),
    0 ≤ act → queueNN q → queueNN nq →
    0 ≤ (flushQueue t q act nq).1 ∧ queueNN (flushQueue t q act nq).2
  | [], act, nq, hact, _, hnq => ⟨hact, hnq⟩
  | (d, a) :: rest, act, nq, hact, hq, hnq => by
      have ha : 0 ≤ a := hq (d, a) (List.mem_cons_self _ _)
      have hrest : queueNN rest := fun da hda => hq da (List.mem_cons_of_mem _ hda)
      rw [flushQueue]
      by_cases hd : d ≤ t
      · rw [if_pos hd]
        exact flushQueue_inv t rest (act + pyTrunc a) nq
          (by have := pyTrunc_nonneg ha; omega) hrest hnq
      · rw [if_neg hd]
        refine flushQueue_inv t rest act (nq ++ [(d, a)]) hact hrest ?_
        intro da hda
        rcases List.mem_append.mp hda with h1 | h1
        · exact hnq da h1
        · simp at h1
          rw [h1]
          exact ha

theorem eliminateList_mapPos :
    ∀ (l : List (Nat × Int)) (rem : Int) (m m2 : EMap),
    eliminateList l rem m = some m2 → mapPos m → mapPos m2
  | [], rem, m, m2, h, hm => by
      rw [eliminateList] at h
      exact Option.some.inj h ▸ hm
  | (eid, cnt) :: rest, rem, m, m2, h, hm => by
      rw [eliminateList] at h
      by_cases hr : rem ≤ 0
      · rw [if_pos hr] at h
        exact Option.some.inj h ▸ hm
      · rw [if_neg hr] at h
        cases hg : dget m (eid, "Extracellular") with
        | none => rw [hg] at h; exact absurd h (by simp)
        | some v =>
            rw [hg] at h
            dsimp only at h
            by_cases hv : v - min cnt rem ≤ 0
            · rw [if_pos hv] at h
              exact eliminateList_mapPos rest _ _ m2 h (mapPos_ddel hm _)
            · rw [if_neg hv] at h
              exact eliminateList_mapPos rest _ _ m2 h (mapPos_dset hm (by omega))

theorem processAntibodies_inv {s s2 : SimState} (h : processAntibodies s = some s2)
    (hs : stateInv s) : stateInv s2 := by
  obtain ⟨he, hne, hil, hih, hab, hq⟩ := hs
  obtain ⟨hact, hqn⟩ := flushQueue_inv s.turn s.abQueue s.abActive [] hab hq
    (fun da hda => absurd hda (List.not_mem_nil da))
  unfold processAntibodies at h
  dsimp only at h
  by_cases h1 : (flushQueue s.turn s.abQueue s.abActive []).1 > 0
  · rw [if_pos h1] at h
    by_cases h2 : (extracellularOf s.entities).1 > 0 ∧
        (flushQueue s.turn s.abQueue s.abActive []).1 > 0
    · rw [if_pos h2] at h
      cases hel : eliminateList (extracellularOf s.entities).2
          (min (extracellularOf s.entities).1
            (flushQueue s.turn s.abQueue s.abActive []).1) s.entities with
      | none => rw [hel] at h; exact absurd h (by simp)
      | some m =>
          rw [hel] at h
          rw [← Option.some.inj h]
          refine ⟨eliminateList_mapPos _ _ _ _ hel he, hne, hil, hih, ?_, hqn⟩
          have := min_le_right (extracellularOf s.entities).1
            (flushQueue s.turn s.abQueue s.abActive []).1
          dsimp only
          omega
    · rw [if_neg h2] at h
      rw [← Option.some.inj h]
      exact ⟨he, hne, hil, hih, hact, hqn⟩
  · rw [if_neg h1] at h
    rw [← Option.some.inj h]
    exact ⟨he, hne, hil, hih, hact, hqn⟩

theorem mapPos_foldl_merge {α : Type} [DecidableEq α] :
    ∀ (l : List (α × Int)) (m : List (α × Int)), mapPos l → mapPos m →
    mapPos (l.foldl (fun m kv => dincr m kv.1 kv.2) m)
  | [], m, _, hm => hm
  | kv :: rest, m, hl, hm => by
      rw [List.foldl_cons]
      exact mapPos_foldl_merge rest _
        (fun x hx => hl x (List.mem_cons_of_mem _ hx))
        (mapPos_dincr hm (hl kv (List.mem_cons_self _ _)))

theorem mergeNew_inv {s : SimState} (hs : stateInv s) : stateInv (mergeNew s) := by
  obtain ⟨he, hne, hil, hih, hab, hq⟩ := hs
  exact ⟨mapPos_foldl_merge s.newEntities s.entities hne he, mapPos_nil, hil, hih, hab, hq⟩

theorem seqSteps_inv {α : Type} (P : SimState → Prop)
    (f : α → SimState → Nat → Option (SimState × Nat)) :
    ∀ (l : List α), (∀ a ∈ l, ∀ s i out, f a s i = some out → P s → P out.1) →
    ∀ (s : SimState) (i : Nat) (out : SimState × Nat),
    seqSteps f l s i = some out → P s → P out.1
  | [], _, s, i, out, h, hp => by
      rw [seqSteps] at h
      rw [← Option.some.inj h]
      exact hp
  | a :: rest, hf, s, i, out, h, hp => by
      rw [seqSteps] at h
      cases hf1 : f a s i with
      | none => rw [hf1] at h; exact absurd h (by simp)
      | some p =>
          rw [hf1] at h
          exact seqSteps_inv P f rest
            (fun b hb => hf b (List.mem_cons_of_mem _ hb)) p.1 p.2 out h
            (hf a (List.mem_cons_self _ _) s i p hf1 hp)

theorem applyTransition_inv {db : Db} {mods : ModKey → ModVals} {eff : Effect}
    {r : RStream} {s : SimState} {i : Nat} {out : SimState × Nat}
    (hout : ∀ o ∈ eff.outputs, o.isUnpackGenome = false → 0 < o.amount)
    (h : applyTransition db mods eff r s i = some out) (hs : stateInv s) :
    stateInv out.1 := by
  unfold applyTransition at h
  cases hfe : feasible s.entities eff.inputs none with
  | none => rw [hfe] at h; exact absurd h (by simp)
  | some p =>
      obtain ⟨avail, minPoss⟩ := p
      rw [hfe] at h
      dsimp only at h
      by_cases ha : avail = false
      · rw [if_pos ha] at h; rw [← Option.some.inj h]; exact hs
      · rw [if_neg ha] at h
        by_cases hm0 : minPoss = some 0
        · rw [if_pos hm0] at h; rw [← Option.some.inj h]; exact hs
        · rw [if_neg hm0] at h
          by_cases htc : effectiveChance mods eff ≤ 0
          · rw [if_pos htc] at h; rw [← Option.some.inj h]; exact hs
          · rw [if_neg htc] at h
            cases hmp : minPoss with
            | none => rw [hmp] at h; exact absurd h (by simp)
            | some mp =>
                rw [hmp] at h
                dsimp only at h
                by_cases hsc : countSucc r i mp.toNat (effectiveChance mods eff) = 0
                · rw [if_pos hsc] at h; rw [← Option.some.inj h]; exact hs
                · rw [if_neg hsc] at h
                  cases hco : consumeInputs (↑(countSucc r i mp.toNat
                      (effectiveChance mods eff))) eff.inputs s.entities with
                  | none => rw [hco] at h; exact absurd h (by simp)
                  | some ents2 =>
                      rw [hco] at h
                      dsimp only at h
                      obtain ⟨he, hne, hil, hih, hab, hq⟩ := hs
                      have hscq : (0 : ℚ) < ↑(countSucc r i mp.toNat
                          (effectiveChance mods eff)) := by
                        exact_mod_cast Nat.pos_of_ne_zero hsc
                      have hsci : (0 : Int) < ↑(countSucc r i mp.toNat
                          (effectiveChance mods eff)) := by
                        exact_mod_cast Nat.pos_of_ne_zero hsc
                      obtain ⟨ne, lc, cp, heq, hpos⟩ := produceOutputs_frame db _
                        eff.outputs { s with entities := ents2 }
                      rw [heq] at h
                      have hne2 : mapPos ne := hpos hsci hout hne
                      have hent2 : mapPos ents2 :=
                        consumeInputs_mapPos _ eff.inputs s.entities ents2 hco he
                      set ifnP := eff.interferonProduction *
                        ((mods (ModKey.effId eff.id)).interferon / 100) *
                        ((mods (ModKey.cat eff.category)).interferon / 100) with hifnP
                      set abR := eff.antibodyResponse *
                        ((mods (ModKey.effId eff.id)).antibody / 100) *
                        ((mods (ModKey.cat eff.category)).antibody / 100) with habR
                      by_cases hifn : ifnP > 0 <;> by_cases hab2 : abR > 0 <;>
                        simp only [if_pos, if_neg, hifn, hab2, ite_true, ite_false,
                          if_true, if_false] at h <;>
                        rw [← Option.some.inj h]
                      · refine ⟨hent2, hne2, ?_, min_le_left _ _, hab, ?_⟩
                        · exact le_min (by norm_num)
                            (add_nonneg hil (le_of_lt (mul_pos hifn hscq)))
                        · intro da hda
                          rcases List.mem_append.mp hda with h1 | h1
                          · exact hq da h1
                          · simp at h1
                            rw [h1]
                            exact le_of_lt (mul_pos hab2 hscq)
                      · exact ⟨hent2, hne2,
                          le_min (by norm_num)
                            (add_nonneg hil (le_of_lt (mul_pos hifn hscq))),
                          min_le_left _ _, hab, hq⟩
                      · refine ⟨hent2, hne2, hil, hih, hab, ?_⟩
                        intro da hda
                        rcases List.mem_append.mp hda with h1 | h1
                        · exact hq da h1
                        · simp at h1
                          rw [h1]
                          exact le_of_lt (mul_pos hab2 hscq)
                      · exact ⟨hent2, hne2, hil, hih, hab, hq⟩

theorem insertById_mem {x e : Effect} :
    ∀ {l : List Effect}, x ∈ insertById e l → x = e ∨ x ∈ l := by
  intro l
  induction l with
  | nil => intro h; simp [insertById] at h; exact Or.inl h
  | cons f fs ih =>
      intro h
      rw [insertById] at h
      by_cases hf : f.id < e.id
      · rw [if_pos hf] at h
        rcases List.mem_cons.mp h with h1 | h1
        · exact Or.inr (h1 ▸ List.mem_cons_self _ _)
        · rcases ih h1 with h2 | h2
          · exact Or.inl h2
          · exact Or.inr (List.mem_cons_of_mem _ h2)
      · rw [if_neg hf] at h
        rcases List.mem_cons.mp h with h1 | h1
        · exact Or.inl h1
        · exact Or.inr h1

theorem sortById_mem {x : Effect} :
    ∀ {l : List Effect}, x ∈ sortById l → x ∈ l := by
  intro l
  induction l with
  | nil => intro h; simp [sortById] at h
  | cons e es ih =>
      intro h
      rw [sortById] at h
      rcases insertById_mem h with h1 | h1
      · exact h1 ▸ List.mem_cons_self _ _
      · exact List.mem_cons_of_mem _ (ih h1)

theorem translateOrf_frame {db : Db} {o : OrfInfo} {s t : SimState}
    (h : translateOrf db o s = some t) :
    ∃ ne np lc cp, t = { s with
      newEntities := ne, newPolys := np, locsEntered := lc, catsProduced := cp } ∧
      (mapPos s.newEntities → mapPos ne) := by
  unfold translateOrf at h
  cases horf : orfProteinIds db o.genes with
  | nil =>
      rw [horf] at h
      exact ⟨s.newEntities, s.newPolys, s.locsEntered, s.catsProduced,
        by rw [← Option.some.inj h], fun hp => hp⟩
  | cons pid rest =>
      cases rest with
      | nil =>
          rw [horf] at h
          dsimp only at h
          exact ⟨_, s.newPolys, _, _, by rw [← Option.some.inj h],
            fun hp => mapPos_dincr hp one_pos⟩
      | cons pid2 rest2 =>
          rw [horf] at h
          dsimp only at h
          cases hcs : cleavageSum db o.genes with
          | none => rw [hcs] at h; exact absurd h (by simp)
          | some cc =>
              rw [hcs] at h
              exact ⟨s.newEntities, _, _, _, by rw [← Option.some.inj h],
                fun hp => hp⟩

theorem doTranslations_frame {db : Db} {orfList : List OrfInfo} {r : RStream} :
    ∀ (k : Nat) (s : SimState) (i : Nat) (out : SimState × Nat),
    doTranslations db orfList r k s i = some out →
    ∃ ne np lc cp, out.1 = { s with
      newEntities := ne, newPolys := np, locsEntered := lc, catsProduced := cp } ∧
      (mapPos s.newEntities → mapPos ne)
  | 0, s, i, out, h => by
      rw [doTranslations] at h
      exact ⟨s.newEntities, s.newPolys, s.locsEntered, s.catsProduced,
        by rw [← Option.some.inj h], fun hp => hp⟩
  | k + 1, s, i, out, h => by
      rw [doTranslations] at h
      cases ht : translateOrf db (orfList.getD (min (Int.toNat
          ⌊r.val i * (orfList.length : ℚ)⌋) (orfList.length - 1)) ⟨"", []⟩) s with
      | none => rw [ht] at h; exact absurd h (by simp)
      | some s2 =>
          rw [ht] at h
          obtain ⟨ne0, np0, lc0, cp0, heq0, hp0⟩ := translateOrf_frame ht
          obtain ⟨ne, np, lc, cp, heq, hp⟩ := doTranslations_frame k s2 (i + 1) out h
          rw [heq0] at heq hp
          exact ⟨ne, np, lc, cp, heq, fun hm => hp (hp0 hm)⟩

theorem applyTranslation_inv {db : Db} {eff : Effect} {r : RStream} {s : SimState}
    {i : Nat} {out : SimState × Nat} (h : applyTranslation db eff r s i = some out)
    (hs : stateInv s) : stateInv out.1 := by
  unfold applyTranslation at h
  cases hta : templatesAvailable s.entities eff.templates none with
  | mk avail minPoss =>
      rw [hta] at h
      cases avail with
      | false => rw [← Option.some.inj h]; exact hs
      | true =>
          dsimp only at h
          by_cases hm0 : minPoss = some 0
          · rw [if_pos hm0] at h; rw [← Option.some.inj h]; exact hs
          · rw [if_neg hm0] at h
            by_cases ho : db.orfs = []
            · rw [if_pos ho] at h; rw [← Option.some.inj h]; exact hs
            · rw [if_neg ho] at h
              by_cases hv : filterOrfs eff.orfTargeting db.orfs = []
              · rw [if_pos hv] at h; rw [← Option.some.inj h]; exact hs
              · rw [if_neg hv] at h
                by_cases hc : eff.translationChance ≤ 0
                · rw [if_pos hc] at h; rw [← Option.some.inj h]; exact hs
                · rw [if_neg hc] at h
                  cases hmp : minPoss with
                  | none => rw [hmp] at h; exact absurd h (by simp)
                  | some mp =>
                      rw [hmp] at h
                      dsimp only at h
                      by_cases hz : countSucc r i mp.toNat eff.translationChance = 0
                      · rw [if_pos hz] at h; rw [← Option.some.inj h]; exact hs
                      · rw [if_neg hz] at h
                        obtain ⟨he, hne, hil, hih, hab, hq⟩ := hs
                        obtain ⟨ne, np, lc, cp, heq, hp⟩ := doTranslations_frame _ _ _ _ h
                        rw [heq]
                        exact ⟨he, hp hne, hil, hih, hab, hq⟩

theorem moveEntities_frame {eff : Effect} {r : RStream} :
    ∀ (l : List (Nat × Int)) (s : SimState) (i : Nat) (out : SimState × Nat),
    moveEntities eff r l s i = some out →
    ∃ e2 lc, out.1 = { s with entities := e2, locsEntered := lc } ∧
      (mapPos s.entities → mapPos e2)
  | [], s, i, out, h => by
      rw [moveEntities] at h
      exact ⟨s.entities, s.locsEntered, by rw [← Option.some.inj h], fun hp => hp⟩
  | (eid, cnt) :: rest, s, i, out, h => by
      rw [moveEntities] at h
      dsimp only at h
      by_cases hz : countSucc r i cnt.toNat eff.locationChangeChance = 0
      · rw [if_pos hz] at h
        exact moveEntities_frame rest s _ out h
      · rw [if_neg hz] at h
        cases hg : dget s.entities (eid, eff.sourceLoc) with
        | none => rw [hg] at h; exact absurd h (by simp)
        | some v =>
            rw [hg] at h
            dsimp only at h
            obtain ⟨e2, lc, heq, hp⟩ := moveEntities_frame rest _ _ out h
            refine ⟨e2, lc, heq, fun hm => hp ?_⟩
            have hmv : (0 : Int) < ↑(countSucc r i cnt.toNat eff.locationChangeChance) := by
              exact_mod_cast Nat.pos_of_ne_zero hz
            by_cases hv2 : v - ↑(countSucc r i cnt.toNat eff.locationChangeChance) ≤ 0
            · rw [if_pos hv2]
              exact mapPos_dincr (mapPos_ddel hm _) hmv
            · rw [if_neg hv2]
              exact mapPos_dincr (mapPos_dset hm (by omega)) hmv

theorem applyLocationChange_inv {db : Db} {eff : Effect} {r : RStream} {s : SimState}
    {i : Nat} {out : SimState × Nat} (h : applyLocationChange db eff r s i = some out)
    (hs : stateInv s) : stateInv out.1 := by
  unfold applyLocationChange at h
  by_cases hg : eff.sourceLoc = "" ∨ eff.targetLoc = "" ∨ eff.locationChangeChance ≤ 0
  · rw [if_pos hg] at h; rw [← Option.some.inj h]; exact hs
  · rw [if_neg hg] at h
    obtain ⟨he, hne, hil, hih, hab, hq⟩ := hs
    obtain ⟨e2, lc, heq, hp⟩ := moveEntities_frame _ _ _ _ h
    rw [heq]
    exact ⟨hp he, hne, hil, hih, hab, hq⟩

theorem mapPos_foldl_dincr_key (v : Int) (hv : 0 < v) :
    ∀ (ids : List Nat) (m : EMap), mapPos m →
    mapPos (ids.foldl (fun m eid => dincr m (eid, "Cytosol") v) m)
  | [], m, hm => hm
  | eid :: rest, m, hm => by
      rw [List.foldl_cons]
      exact mapPos_foldl_dincr_key v hv rest _ (mapPos_dincr hm hv)

theorem cleaveList_inv {r : RStream} :
    ∀ (l : List (Poly × Int)) (s : SimState) (i : Nat) (out : SimState × Nat),
    cleaveList r l s i = some out → stateInv s → stateInv out.1
  | [], s, i, out, h, hs => by
      rw [cleaveList] at h
      rw [← Option.some.inj h]
      exact hs
  | (p, cnt) :: rest, s, i, out, h, hs => by
      rw [cleaveList] at h
      by_cases h1 : cnt ≤ 0
      · rw [if_pos h1] at h
        exact cleaveList_inv rest s i out h hs
      · rw [if_neg h1] at h
        by_cases h2 : p.cleavage ≤ 0
        · rw [if_pos h2] at h
          exact cleaveList_inv rest s i out h hs
        · rw [if_neg h2] at h
          dsimp only at h
          by_cases hz : countSucc r i cnt.toNat p.cleavage = 0
          · rw [if_pos hz] at h
            exact cleaveList_inv rest s _ out h hs
          · rw [if_neg hz] at h
            cases hg : dget s.polys p with
            | none => rw [hg] at h; exact absurd h (by simp)
            | some v =>
                rw [hg] at h
                dsimp only at h
                refine cleaveList_inv rest _ _ out h ?_
                obtain ⟨he, hne, hil, hih, hab, hq⟩ := hs
                have hclv : (0 : Int) < ↑(countSucc r i cnt.toNat p.cleavage) := by
                  exact_mod_cast Nat.pos_of_ne_zero hz
                exact ⟨he, mapPos_foldl_dincr_key _ hclv p.proteinIds s.newEntities hne,
                  hil, hih, hab, hq⟩

theorem degradeList_mapPos {db : Db} {r : RStream} {ifn : ℚ} :
    ∀ (snap : List (EKey × Int)) (m : EMap) (i : Nat) (out : EMap × Nat),
    degradeList db r ifn snap m i = some out → mapPos m → mapPos out.1
  | [], m, i, out, h, hm => by
      rw [degradeList] at h
      rw [← Option.some.inj h]
      exact hm
  | ((eid, loc), cnt) :: rest, m, i, out, h, hm => by
      rw [degradeList] at h
      cases hc : getEntityCat db eid with
      | none =>
          rw [hc] at h
          exact degradeList_mapPos rest m i out h hm
      | some cat =>
          rw [hc] at h
          dsimp only at h
          by_cases hz : countSucc r i cnt.toNat (adjustedChance db cat loc ifn) = 0
          · rw [if_pos hz] at h
            exact degradeList_mapPos rest m _ out h hm
          · rw [if_neg hz] at h
            cases hg : dget m (eid, loc) with
            | none => rw [hg] at h; exact absurd h (by simp)
            | some v =>
                rw [hg] at h
                dsimp only at h
                by_cases hv2 : v - ↑(countSucc r i cnt.toNat
                    (adjustedChance db cat loc ifn)) ≤ 0
                · rw [if_pos hv2] at h
                  exact degradeList_mapPos rest _ _ out h (mapPos_ddel hm _)
                · rw [if_neg hv2] at h
                  exact degradeList_mapPos rest _ _ out h (mapPos_dset hm (by omega))

theorem degradationStep_inv {db : Db} {r : RStream} {s : SimState} {i : Nat}
    {out : SimState × Nat} (h : degradationStep db r s i = some out)
    (hs : stateInv s) : stateInv out.1 := by
  unfold degradationStep at h
  dsimp only at h
  cases h1 : degradeList db r s.ifnLevel s.entities s.entities i with
  | none => rw [h1] at h; exact absurd h (by simp)
  | some p1 =>
      rw [h1] at h
      dsimp only at h
      cases h2 : degradeList db r s.ifnLevel s.newEntities s.newEntities p1.2 with
      | none => rw [h2] at h; exact absurd h (by simp)
      | some p2 =>
          rw [h2] at h
          rw [← Option.some.inj h]
          obtain ⟨he, hne, hil, hih, hab, hq⟩ := hs
          exact ⟨degradeList_mapPos _ _ _ _ h1 he,
            degradeList_mapPos _ _ _ _ h2 hne, hil, hih, hab, hq⟩

theorem polyDegradationStep_inv {db : Db} {r : RStream} {s : SimState} {i : Nat}
    {out : SimState × Nat} (h : polyDegradationStep db r s i = some out)
    (hs : stateInv s) : stateInv out.1 := by
  unfold polyDegradationStep at h
  dsimp only at h
  cases h1 : degradePolyList r (polyAdjChance db s.ifnLevel) s.polys s.polys i with
  | none => rw [h1] at h; exact absurd h (by simp)
  | some p1 =>
      rw [h1] at h
      dsimp only at h
      cases h2 : degradePolyList r (polyAdjChance db s.ifnLevel) s.newPolys
          s.newPolys p1.2 with
      | none => rw [h2] at h; exact absurd h (by simp)
      | some p2 =>
          rw [h2] at h
          rw [← Option.some.inj h]
          exact hs

theorem ifnDecayStep_inv {db : Db} {s : SimState} (hdecay : 0 ≤ db.ifnDecay)
    (hs : stateInv s) : stateInv (ifnDecayStep db s) := by
  obtain ⟨he, hne, hil, hih, hab, hq⟩ := hs
  unfold ifnDecayStep
  by_cases h1 : s.ifnLevel > 0
  · rw [if_pos h1]
    refine ⟨he, hne, le_max_left _ _, ?_, hab, hq⟩
    refine max_le (by norm_num) ?_
    calc s.ifnLevel - db.ifnDecay ≤ s.ifnLevel := sub_le_self _ hdecay
      _ ≤ 100 := hih
  · rw [if_neg h1]
    exact ⟨he, hne, hil, hih, hab, hq⟩

theorem checkConditions_inv {db : Db} {s : SimState} (hs : stateInv s) :
    stateInv (checkConditions db s) := by
  obtain ⟨h1, h2, -, -, -, -, h7, h8, h9⟩ := checkConditions_fields db s
  obtain ⟨he, hne, hil, hih, hab, hq⟩ := hs
  refine ⟨?_, ?_, ?_, ?_, ?_, ?_⟩
  · rw [h1]; exact he
  · rw [h2]; exact hne
  · rw [h7]; exact hil
  · rw [h7]; exact hih
  · rw [h8]; exact hab
  · rw [h9]; exact hq

theorem startState_inv (db : Db) (sid : Nat) : stateInv (startState db sid) := by
  unfold startState
  refine ⟨?_, ?_, ?_, ?_, ?_, ?_⟩
  · intro kv hkv
    simp [recordHistory] at hkv
    rw [hkv]
    norm_num
  · exact mapPos_nil
  · exact le_refl 0
  · exact (by norm_num : (0 : ℚ) ≤ 100)
  · exact le_refl 0
  · intro da hda
    simp [recordHistory] at hda

theorem runTurn_inv {db : Db} {effs glEffs : List Effect} {r : RStream}
    {s : SimState} {i : Nat} {out : SimState × Nat}
    (hout : outputsPositive (effs ++ glEffs)) (hdecay : 0 ≤ db.ifnDecay)
    (h : runTurn db effs glEffs r s i = some out) (hs : stateInv s) :
    stateInv out.1 := by
  unfold runTurn at h
  by_cases hg : s.isRunning = false ∨ s.isEnded = true
  · rw [if_pos hg] at h
    rw [← Option.some.inj h]
    exact hs
  · rw [if_neg hg] at h
    dsimp only at h
    simp only [Option.bind_eq_some] at h
    obtain ⟨p2, h2, p3, h3, p4, h4, p5, h5, p6, h6, p7, h7, s9, h9, hfin⟩ := h
    have hs1 : stateInv (mergeNew { s with turn := s.turn + 1 }) :=
      mergeNew_inv hs
    have hp2 : stateInv p2.1 := by
      refine seqSteps_inv stateInv _ _ ?_ _ _ _ h2 hs1
      intro a hma s' i' out' hfa hpa
      refine applyTransition_inv ?_ hfa hpa
      exact hout a (List.mem_filter.mp (sortById_mem hma)).1
    have hp3 : stateInv p3.1 := by
      refine seqSteps_inv stateInv _ _ ?_ _ _ _ h3 hp2
      intro a _ s' i' out' hfa hpa
      exact applyTranslation_inv hfa hpa
    have hp4 : stateInv p4.1 := by
      refine seqSteps_inv stateInv _ _ ?_ _ _ _ h4 hp3
      intro a _ s' i' out' hfa hpa
      exact applyLocationChange_inv hfa hpa
    have hp5 : stateInv p5.1 := cleaveList_inv _ _ _ _ h5 hp4
    have hp6 : stateInv p6.1 := degradationStep_inv h6 hp5
    have hp7 : stateInv p7.1 := polyDegradationStep_inv h7 hp6
    have hs8 : stateInv (ifnDecayStep db p7.1) := ifnDecayStep_inv hdecay hp7
    have hs9 : stateInv s9 := processAntibodies_inv h9 hs8
    rw [← Option.some.inj hfin]
    exact checkConditions_inv (mergeNew_inv hs9)

theorem effectiveChance_hundred (e : Effect) (h : e.chance = 100) :
    effectiveChance (fun _ => (⟨100, 100, 100⟩ : ModVals)) e = 100 := by
  show max (0 : ℚ) (min 100 (e.chance * (100 / 100) * (100 / 100))) = 100
  rw [h, show (100 : ℚ) * (100 / 100) * (100 / 100) = 100 from by norm_num, min_self,
    max_eq_right (by norm_num : (0 : ℚ) ≤ 100)]

theorem zeroOutput_apply (r : RStream) (hr : r.ok) :
    applyTransition dbVR (getTransitionModifiers [zeroOutputEffect]) zeroOutputEffect r
      sB1 0 = some (sZ2, 10) := by
  have h100 : countSucc r 0 10 100 = 10 := countSucc_hundred hr 0 10 le_rfl
  rw [show getTransitionModifiers [zeroOutputEffect] =
    (fun _ => (⟨100, 100, 100⟩ : ModVals)) from rfl]
  unfold applyTransition
  rw [show feasible sB1.entities zeroOutputEffect.inputs none =
    some (true, some 10) from rfl]
  try dsimp only
  rw [if_neg (show ¬ (true = false) from by decide),
    if_neg (show ¬ (some (10 : Int) = some 0) from by decide),
    effectiveChance_hundred zeroOutputEffect rfl,
    if_neg (show ¬ ((100 : ℚ) ≤ 0) from by decide)]
  try dsimp only
  rw [show Int.toNat 10 = 10 from rfl, h100,
    if_neg (show ¬ ((10 : Nat) = 0) from by decide),
    show consumeInputs ((10 : Nat) : Int) zeroOutputEffect.inputs sB1.entities =
      some [((1, "Extracellular"), 10)] from rfl]
  try dsimp only
  rw [show produceOutputs dbVR ((10 : Nat) : Int) zeroOutputEffect.outputs
    { sB1 with entities := [((1, "Extracellular"), 10)] } = sZ2 from rfl]
  rw [if_neg (show ¬ (zeroOutputEffect.interferonProduction *
      ((100 : ℚ) / 100) * ((100 : ℚ) / 100) > 0) from by
    norm_num [zeroOutputEffect, baseEffect])]
  rw [if_neg (show ¬ (zeroOutputEffect.antibodyResponse *
      ((100 : ℚ) / 100) * ((100 : ℚ) / 100) > 0) from by
    norm_num [zeroOutputEffect, baseEffect])]

theorem zeroOutput_transStep (r : RStream) (hr : r.ok) :
    transitionsStep dbVR [zeroOutputEffect] r sB1 0 = some (sZ2, 10) := by
  unfold transitionsStep
  rw [show sortById (List.filter (fun e => decide (e.effectType = "Transition"))
    [zeroOutputEffect]) = [zeroOutputEffect] from rfl]
  unfold seqSteps
  try dsimp only
  rw [zeroOutput_apply r hr]
  rfl

theorem zeroOutput_degrade (r : RStream) (hr : r.ok) :
    degradationStep dbVR r sZ2 10 = some (sZ2, 20) := by
  have h0a : countSucc r 10 10 0 = 0 := countSucc_zeroChance hr 10 10 le_rfl
  unfold degradationStep
  try dsimp only
  have h1 : degradeList dbVR r sZ2.ifnLevel sZ2.entities sZ2.entities 10 =
      some (sZ2.entities, 20) := by
    rw [show sZ2.entities = [((1, "Extracellular"), 10)] from rfl]
    unfold degradeList
    rw [show getEntityCat dbVR 1 = some "Virion" from rfl]
    try dsimp only
    rw [show adjustedChance dbVR "Virion" "Extracellular" sZ2.ifnLevel = 0 from rfl,
      show Int.toNat 10 = 10 from rfl, h0a, if_pos rfl]
    unfold degradeList
    rfl
  rw [h1]
  rfl

theorem zeroOutput_turn (r : RStream) (hr : r.ok) :
    runTurn dbVR [zeroOutputEffect] [] r (startState dbVR 1) 0 = some (sZF, 20) := by
  unfold runTurn
  rw [if_neg (show ¬ ((startState dbVR 1).isRunning = false ∨
    (startState dbVR 1).isEnded = true) from by decide)]
  try dsimp only
  rw [show mergeNew { startState dbVR 1 with turn := (startState dbVR 1).turn + 1 } =
    sB1 from rfl]
  rw [show [zeroOutputEffect] ++ ([] : List Effect) = [zeroOutputEffect] from rfl]
  rw [zeroOutput_transStep r hr]
  simp only [Option.some_bind]
  rw [show translationsStep dbVR [zeroOutputEffect] r sZ2 10 = some (sZ2, 10) from rfl]
  simp only [Option.some_bind]
  rw [show locationStep dbVR [zeroOutputEffect] r sZ2 10 = some (sZ2, 10) from rfl]
  simp only [Option.some_bind]
  rw [show cleavageStep r sZ2 10 = some (sZ2, 10) from rfl]
  simp only [Option.some_bind]
  rw [zeroOutput_degrade r hr]
  simp only [Option.some_bind]
  rw [show polyDegradationStep dbVR r sZ2 20 = some (sZ2, 20) from rfl]
  simp only [Option.some_bind]
  rw [show ifnDecayStep dbVR sZ2 = sZ2 from rfl]
  rw [show processAntibodies sZ2 = some sZ2 from rfl]
  simp only [Option.some_bind]
  rw [show checkConditions dbVR (recordHistory dbVR (mergeNew sZ2)) = sZF from rfl]

theorem zeroOutput_map (r : RStream) (hr : r.ok) :
    (runTurns dbVR [zeroOutputEffect] [] r 1 1).map
      (fun p => dget p.1.entities (2, "Cytosol")) = some (some 0) := by
  unfold runTurns
  rw [show runTurns dbVR [zeroOutputEffect] [] r 1 0 =
    some (startState dbVR 1, 0) from rfl]
  dsimp only [Option.bind]
  rw [zeroOutput_turn r hr]
  rfl

theorem ifnProducer_apply (r : RStream) (hr : r.ok) :
    applyTransition negDecayDb (getTransitionModifiers [ifnProducerEffect])
      ifnProducerEffect r sB1 0 = some (sI2, 10) := by
  have h100 : countSucc r 0 10 100 = 10 := countSucc_hundred hr 0 10 le_rfl
  rw [show getTransitionModifiers [ifnProducerEffect] =
    (fun _ => (⟨100, 100, 100⟩ : ModVals)) from rfl]
  unfold applyTransition
  rw [show feasible sB1.entities ifnProducerEffect.inputs none =
    some (true, some 10) from rfl]
  try dsimp only
  rw [if_neg (show ¬ (true = false) from by decide),
    if_neg (show ¬ (some (10 : Int) = some 0) from by decide),
    effectiveChance_hundred ifnProducerEffect rfl,
    if_neg (show ¬ ((100 : ℚ) ≤ 0) from by decide)]
  try dsimp only
  rw [show Int.toNat 10 = 10 from rfl, h100,
    if_neg (show ¬ ((10 : Nat) = 0) from by decide),
    show consumeInputs ((10 : Nat) : Int) ifnProducerEffect.inputs sB1.entities =
      some [((1, "Extracellular"), 10)] from rfl]
  try dsimp only
  rw [show produceOutputs negDecayDb ((10 : Nat) : Int) ifnProducerEffect.outputs
    { sB1 with entities := [((1, "Extracellular"), 10)] } = sB1 from rfl]
  rw [if_pos (show ifnProducerEffect.interferonProduction *
      ((100 : ℚ) / 100) * ((100 : ℚ) / 100) > 0 from by
    norm_num [ifnProducerEffect, baseEffect])]
  rw [if_neg (show ¬ (ifnProducerEffect.antibodyResponse *
      ((100 : ℚ) / 100) * ((100 : ℚ) / 100) > 0) from by
    norm_num [ifnProducerEffect, baseEffect])]
  have hmin : min (100 : ℚ) (sB1.ifnLevel + ifnProducerEffect.interferonProduction *
      ((100 : ℚ) / 100) * ((100 : ℚ) / 100) * (((10 : Nat) : Int) : ℚ)) = 100 := by
    rw [show sB1.ifnLevel = 0 from rfl,
      show ifnProducerEffect.interferonProduction = 200 from rfl]
    norm_num [min_def]
  rw [hmin]
  rfl

theorem ifnProducer_transStep (r : RStream) (hr : r.ok) :
    transitionsStep negDecayDb [ifnProducerEffect] r sB1 0 = some (sI2, 10) := by
  unfold transitionsStep
  rw [show sortById (List.filter (fun e => decide (e.effectType = "Transition"))
    [ifnProducerEffect]) = [ifnProducerEffect] from rfl]
  unfold seqSteps
  try dsimp only
  rw [ifnProducer_apply r hr]
  rfl

theorem ifnProducer_degrade (r : RStream) (hr : r.ok) :
    degradationStep negDecayDb r sI2 10 = some (sI2, 20) := by
  have h0a : countSucc r 10 10 0 = 0 := countSucc_zeroChance hr 10 10 le_rfl
  unfold degradationStep
  try dsimp only
  have h1 : degradeList negDecayDb r sI2.ifnLevel sI2.entities sI2.entities 10 =
      some (sI2.entities, 20) := by
    rw [show sI2.entities = [((1, "Extracellular"), 10)] from rfl]
    unfold degradeList
    rw [show getEntityCat negDecayDb 1 = some "Virion" from rfl]
    try dsimp only
    rw [show adjustedChance negDecayDb "Virion" "Extracellular" sI2.ifnLevel = 0 from rfl,
      show Int.toNat 10 = 10 from rfl, h0a, if_pos rfl]
    unfold degradeList
    rfl
  rw [h1]
  rfl

theorem ifnProducer_decay : ifnDecayStep negDecayDb sI2 = sI3 := by
  unfold ifnDecayStep
  rw [if_pos (show sI2.ifnLevel > 0 from by norm_num [sI2, sB1])]
  have hm : max (0 : ℚ) (sI2.ifnLevel - negDecayDb.ifnDecay) = 150 := by
    rw [show sI2.ifnLevel = (100 : ℚ) from rfl,
      show negDecayDb.ifnDecay = (-50 : ℚ) from rfl]
    norm_num [max_def]
  rw [hm]
  rfl

theorem ifnProducer_turn (r : RStream) (hr : r.ok) :
    runTurn negDecayDb [ifnProducerEffect] [] r (startState negDecayDb 1) 0 =
      some (sIF, 20) := by
  unfold runTurn
  rw [if_neg (show ¬ ((startState negDecayDb 1).isRunning = false ∨
    (startState negDecayDb 1).isEnded = true) from by decide)]
  try dsimp only
  rw [show mergeNew { startState negDecayDb 1 with
    turn := (startState negDecayDb 1).turn + 1 } = sB1 from rfl]
  rw [show [ifnProducerEffect] ++ ([] : List Effect) = [ifnProducerEffect] from rfl]
  rw [ifnProducer_transStep r hr]
  simp only [Option.some_bind]
  rw [show translationsStep negDecayDb [ifnProducerEffect] r sI2 10 =
    some (sI2, 10) from rfl]
  simp only [Option.some_bind]
  rw [show locationStep negDecayDb [ifnProducerEffect] r sI2 10 =
    some (sI2, 10) from rfl]
  simp only [Option.some_bind]
  rw [show cleavageStep r sI2 10 = some (sI2, 10) from rfl]
  simp only [Option.some_bind]
  rw [ifnProducer_degrade r hr]
  simp only [Option.some_bind]
  rw [show polyDegradationStep negDecayDb r sI2 20 = some (sI2, 20) from rfl]
  simp only [Option.some_bind]
  rw [ifnProducer_decay]
  rw [show processAntibodies sI3 = some sI3 from rfl]
  simp only [Option.some_bind]
  rw [show checkConditions negDecayDb (recordHistory negDecayDb (mergeNew sI3)) =
    sIF from rfl]

theorem ifnProducer_map (r : RStream) (hr : r.ok) :
    (runTurns negDecayDb [ifnProducerEffect] [] r 1 1).map
      (fun p => p.1.ifnLevel) = some 150 := by
  unfold runTurns
  rw [show runTurns negDecayDb [ifnProducerEffect] [] r 1 0 =
    some (startState negDecayDb 1, 0) from rfl]
  dsimp only [Option.bind]
  rw [ifnProducer_turn r hr]
  rfl

/-- C7 counterexample: (a) with a 100%-chance rule whose single output has
amount 0 (and a non-consumed input), the zero production `0 * successes` is
stored in the new-entity map and merged, so the turn ends with the key
`(2, Cytosol)` stored at count 0 — a zero-count key persists; (b) with the
configured interferon decay rate set to -50 and a rule producing interferon,
the turn ends with interferon at 150, outside [0, 100]. -/
theorem turn_invariant_counterexamples :
    ((runTurns dbVR [zeroOutputEffect] [] r0 1 1).map
      (fun p => dget p.1.entities (2, "Cytosol")) = some (some 0)) ∧
    ((runTurns negDecayDb [ifnProducerEffect] [] r0 1 1).map
      (fun p => p.1.ifnLevel) = some 150) :=
  ⟨zeroOutput_map r0 r0_ok, ifnProducer_map r0 r0_ok⟩

/-- C7 (amended): provided every transition-rule output (other than genome
unpacks) carries a positive amount and the configured interferon decay rate
is nonnegative, the turn-boundary invariants hold after every number of
turns from the start state: every stored (kind, compartment) count is
strictly positive (never negative, and no zero-count key is stored), the
interferon level lies in [0, 100], and antibody-active is nonnegative. -/
theorem turn_invariants_hold (db : Db) (effs glEffs : List Effect) (r : RStream)
    (starterId n : Nat) (p : SimState × Nat)
    (hout : outputsPositive (effs ++ glEffs)) (hdecay : 0 ≤ db.ifnDecay)
    (h : runTurns db effs glEffs r starterId n = some p) :
    stateInv p.1 := by
  induction n generalizing p with
  | zero =>
      rw [show runTurns db effs glEffs r starterId 0 =
        some (startState db starterId, 0) from rfl] at h
      rw [← Option.some.inj h]
      exact startState_inv db starterId
  | succ n ih =>
      rw [show runTurns db effs glEffs r starterId (n + 1) =
        (runTurns db effs glEffs r starterId n).bind
          (fun q => runTurn db effs glEffs r q.1 q.2) from rfl] at h
      rw [Option.bind_eq_some] at h
      obtain ⟨q, hq, hstep⟩ := h
      exact runTurn_inv hout hdecay hstep (ih q hq)

/-- Witness for the amended C7: the hypotheses hold for the empty effect
list over `dbVR` (no outputs at all, decay 0), and the theorem gives the
invariant at the start state (zero turns). -/
theorem turn_invariants_hold_witness :
    outputsPositive (([] : List Effect) ++ []) ∧ (0 : ℚ) ≤ dbVR.ifnDecay ∧
      stateInv (startState dbVR 1) :=
  ⟨fun e he => absurd he (List.not_mem_nil e),
   le_refl (0 : ℚ),
   turn_invariants_hold dbVR [] [] r0 1 0 (startState dbVR 1, 0)
     (fun e he => absurd he (List.not_mem_nil e)) (le_refl (0 : ℚ)) rfl⟩

end Viral
